import Mathlib

/-!
Verification of the mesh-code codec in `src/utils/mesh_utils.py` of the
`tokyo-mesh` repository.

Modelling conventions:
* Python/NumPy double-precision arithmetic is idealised as exact rational
  arithmetic (`ℚ`); the algorithm is a finite composition of `+ - * /`,
  truncation and string formatting, all of which are exact over `ℚ`.
* NumPy `astype(int)` truncates toward zero; it is modelled by `truncInt`.
* A Python string is modelled as `List Char`; `str(int)` is `intStr`,
  `str.zfill(2)` is `zfill2`, the slice `s[i:j]` is `slice s i j`, and
  `s[i:i+1].replace('', '0').astype(int)` (a single character parsed as a
  digit, with the empty slice read as 0) is `charAt s i`.
* The vectorized decoder `_meshcode_to_latlon_vectorized` applies the same
  per-element formula across the batch: every NumPy mask (`np.where`,
  `mask2`, `mask3`, `mask_i`) depends only on the element's own string
  length, so the batch stages are modelled as `List.map` of per-element
  stage functions (`stage1`, `stage2`, `stage3`, `stepI`); the
  `if mask.any()` fast-path guards in the source skip stages exactly when
  those stages act as the identity on every element.  The single genuine
  batch-level coupling is `max_len = s_code.str.len().max()`: on an empty
  batch pandas returns NaN and `int(NaN)` raises `ValueError`, which is
  modelled by the error branch taken when the batch is empty.
* Raised exceptions are modelled with `Except String`; the decoder's
  `raise ValueError(f"Invalid mode: {mode}")` is the error value
  `"Invalid mode: " ++ mode`.
-/

namespace TokyoMesh

/-- NumPy `astype(int)` on a float: truncation toward zero. -/
def truncInt (q : ℚ) : ℤ := if q < 0 then -⌊-q⌋ else ⌊q⌋

/-- The character for a decimal digit `d` (`0 ≤ d ≤ 9`). -/
def digitChar (d : ℕ) : Char := Char.ofNat (48 + d)

/-- The digit value of a character (Python `float(c)`/`int(c)` on one digit). -/
def charDigit (c : Char) : ℕ := c.toNat - 48

/-- Decimal representation of a natural number, as Python `str(n)`. -/
def natStr (n : ℕ) : List Char :=
  if _h : n < 10 then [digitChar n]
  else natStr (n / 10) ++ [digitChar (n % 10)]
decreasing_by exact Nat.div_lt_self (by omega) (by omega)

/-- Python `str(n)` for an integer. -/
def intStr (n : ℤ) : List Char :=
  if n < 0 then '-' :: natStr (-n).toNat else natStr n.toNat

/-- Python `str.zfill(2)`: left-pad with `'0'` to width 2. -/
def zfill2 (s : List Char) : List Char :=
  if s.length < 2 then List.replicate (2 - s.length) '0' ++ s else s

/-- The slice `s[i:j]` of a Python string. -/
def slice (s : List Char) (i j : ℕ) : List Char := (s.take j).drop i

/-- Parse a string of decimal digits as a number (`astype(float)` on digits). -/
def parseNat (s : List Char) : ℕ := s.foldl (fun a c => a * 10 + charDigit c) 0

/-- `s[i:i+1].replace('', '0')` parsed as one digit: the character at
position `i` when present, and the digit 0 when the string is too short. -/
def charAt (s : List Char) (i : ℕ) : ℕ :=
  match s.get? i with
  | some c => charDigit c
  | none => 0

/-- The loop `for _ in range(4, level + 1)` of `latlon_to_meshcode`, run for
`k` remaining iterations.  State `(tLat, tLon, mLat, mLon)` mirrors the
Python variables `curr_t_lat, curr_t_lon, curr_m_lat, curr_m_lon`; each
iteration appends the quadrant digit `m_lat * 2 + m_lon + 1`. -/
def encodeLoop : ℕ → ℚ → ℚ → ℤ → ℤ → List Char
  | 0, _, _, _, _ => []
  | Nat.succ k, tLat, tLon, mLat, mLon =>
    let remLat := tLat - (mLat : ℚ)
    let remLon := tLon - (mLon : ℚ)
    let tLat2 := remLat * 2
    let tLon2 := remLon * 2
    let mLat2 := truncInt tLat2
    let mLon2 := truncInt tLon2
    intStr (mLat2 * 2 + mLon2 + 1) ++ encodeLoop k tLat2 tLon2 mLat2 mLon2

/-- `latlon_to_meshcode` of `src/utils/mesh_utils.py` (scalar form): convert
latitude/longitude to a mesh code at the given level.  The source performs
no validation of `level`: levels 1, 2, 3 return early, and the final loop
`range(4, level + 1)` runs `max 0 (level - 3)` times. -/
def latlon_to_meshcode (lat lon : ℚ) (level : ℤ) : List Char :=
  let tLat1 := lat * (3 / 2)
  let tLon1 := lon - 100
  let m1Lat := truncInt tLat1
  let m1Lon := truncInt tLon1
  let code1 := intStr m1Lat ++ zfill2 (intStr m1Lon)
  if level = 1 then code1 else
  let remLat1 := tLat1 - (m1Lat : ℚ)
  let remLon1 := tLon1 - (m1Lon : ℚ)
  let tLat2 := remLat1 * 8
  let tLon2 := remLon1 * 8
  let m2Lat := truncInt tLat2
  let m2Lon := truncInt tLon2
  let code2 := code1 ++ intStr m2Lat ++ intStr m2Lon
  if level = 2 then code2 else
  let remLat2 := tLat2 - (m2Lat : ℚ)
  let remLon2 := tLon2 - (m2Lon : ℚ)
  let tLat3 := remLat2 * 10
  let tLon3 := remLon2 * 10
  let m3Lat := truncInt tLat3
  let m3Lon := truncInt tLon3
  let code3 := code2 ++ intStr m3Lat ++ intStr m3Lon
  if level = 3 then code3 else
  code3 ++ encodeLoop (level - 3).toNat tLat3 tLon3 m3Lat m3Lon

/-- Per-element decoder state: accumulated coordinates and current cell
size (the arrays `lat, lon, lat_delta, lon_delta` of the source). -/
structure DecSt where
  lat : ℚ
  lon : ℚ
  latDelta : ℚ
  lonDelta : ℚ
deriving DecidableEq

/-- A coordinate record returned by the decoder: either a point
(`sw`/`center` modes) or a bounding box (`bbox` mode). -/
inductive CoordRec where
  | point (lat lon : ℚ)
  | box (minLat minLon maxLat maxLon : ℚ)
deriving DecidableEq

/-- Level-1 part of the decoder: characters 0–3, initial deltas `2/3`, `1`. -/
def stage1 (c : List Char) : DecSt :=
  ⟨(parseNat (slice c 0 2) : ℚ) * (2 / 3),
   (parseNat (slice c 2 4) : ℚ) + 100,
   2 / 3, 1⟩

/-- Level-2 part of the decoder (`mask2 = len ≥ 6`): divide deltas by 8 and
add `digit * delta` for characters 4 and 5. -/
def stage2 (c : List Char) (st : DecSt) : DecSt :=
  if 6 ≤ c.length then
    ⟨st.lat + (charAt c 4 : ℚ) * (st.latDelta / 8),
     st.lon + (charAt c 5 : ℚ) * (st.lonDelta / 8),
     st.latDelta / 8, st.lonDelta / 8⟩
  else st

/-- Level-3 part of the decoder (`mask3 = len ≥ 8`): divide deltas by 10 and
add `digit * delta` for characters 6 and 7. -/
def stage3 (c : List Char) (st : DecSt) : DecSt :=
  if 8 ≤ c.length then
    ⟨st.lat + (charAt c 6 : ℚ) * (st.latDelta / 10),
     st.lon + (charAt c 7 : ℚ) * (st.lonDelta / 10),
     st.latDelta / 10, st.lonDelta / 10⟩
  else st

/-- One iteration of the level 4–6 loop of the decoder (`mask_i = len > i`):
halve the deltas, add `lat_delta` when the digit is 3 or 4, and `lon_delta`
when the digit is 2 or 4. -/
def stepI (i : ℕ) (c : List Char) (st : DecSt) : DecSt :=
  if i < c.length then
    ⟨st.lat + (if charAt c i = 3 ∨ charAt c i = 4 then st.latDelta / 2 else 0),
     st.lon + (if charAt c i = 2 ∨ charAt c i = 4 then st.lonDelta / 2 else 0),
     st.latDelta / 2, st.lonDelta / 2⟩
  else st

/-- The full per-element accumulation of `_meshcode_to_latlon_vectorized`
for one code, with the batch-wide loop bound `max_len` (the loop runs over
`range(8, max_len)`). -/
def decodeCell (c : List Char) (maxLen : ℕ) : DecSt :=
  (List.range' 8 (maxLen - 8)).foldl (fun st i => stepI i c st)
    (stage3 c (stage2 c (stage1 c)))

/-- `_meshcode_to_latlon_vectorized` of `src/utils/mesh_utils.py`: decode a
batch of mesh codes.  On the empty batch, `s_code.str.len().max()` is NaN
in pandas and `int(NaN)` raises `ValueError` before the mode dispatch; any
unsupported mode raises `ValueError(f"Invalid mode: {mode}")`. -/
def meshcode_to_latlon_vectorized (codes : List (List Char)) (mode : String) :
    Except String (List CoordRec) :=
  if codes.isEmpty then Except.error "cannot convert float NaN to integer"
  else
    let maxLen := codes.foldl (fun a c => max a c.length) 0
    let sts := codes.map fun c => decodeCell c maxLen
    if mode = "sw" then
      Except.ok (sts.map fun st => CoordRec.point st.lat st.lon)
    else if mode = "center" then
      Except.ok (sts.map fun st =>
        CoordRec.point (st.lat + st.latDelta / 2) (st.lon + st.lonDelta / 2))
    else if mode = "bbox" then
      Except.ok (sts.map fun st =>
        CoordRec.box st.lat st.lon (st.lat + st.latDelta) (st.lon + st.lonDelta))
    else Except.error ("Invalid mode: " ++ mode)

/-- The scalar branch of `meshcode_to_latlon`: wrap the code in a
one-element batch and take `res.iloc[0]`. -/
def meshcode_to_latlon (code : List Char) (mode : String) :
    Except String CoordRec :=
  match meshcode_to_latlon_vectorized [code] mode with
  | Except.ok (r :: _) => Except.ok r
  | Except.ok [] => Except.error "single positional indexer is out-of-bounds"
  | Except.error e => Except.error e

/-- A character that is a decimal digit. -/
def IsDigitChar (c : Char) : Prop := 48 ≤ c.toNat ∧ c.toNat ≤ 57

instance (c : Char) : Decidable (IsDigitChar c) := by
  unfold IsDigitChar; infer_instance

/-- A string consisting solely of decimal digits. -/
def DigitStr (s : List Char) : Prop := ∀ c ∈ s, IsDigitChar c

instance (s : List Char) : Decidable (DigitStr s) := by
  unfold DigitStr; infer_instance

/-- Coordinates inside the valid Japan mesh range: the level-1 latitude
index `⌊lat * 1.5⌋` has two decimal digits and the longitude index
`⌊lon - 100⌋` lies in `[0, 100)`, so that the level-1 code is the 4-digit
string the decoder parses back. -/
def ValidJapan (lat lon : ℚ) : Prop :=
  10 ≤ lat * (3 / 2) ∧ lat * (3 / 2) < 100 ∧ 100 ≤ lon ∧ lon < 200

instance (lat lon : ℚ) : Decidable (ValidJapan lat lon) := by
  unfold ValidJapan; infer_instance

/-- Latitude height of a level-`L` cell (`L ∈ {1,…,6}`). -/
def latStep : ℕ → ℚ
  | 1 => 2 / 3
  | 2 => 2 / 3 / 8
  | 3 => 2 / 3 / 80
  | 4 => 2 / 3 / 160
  | 5 => 2 / 3 / 320
  | 6 => 2 / 3 / 640
  | _ => 1

/-- Longitude width of a level-`L` cell (`L ∈ {1,…,6}`). -/
def lonStep : ℕ → ℚ
  | 1 => 1
  | 2 => 1 / 8
  | 3 => 1 / 80
  | 4 => 1 / 160
  | 5 => 1 / 320
  | 6 => 1 / 640
  | _ => 1

/-- Closed form of the decoded (south-west) latitude of one code. -/
def latOf (c : List Char) : ℚ :=
  (parseNat (slice c 0 2) : ℚ) * (2 / 3)
  + (if 6 ≤ c.length then (charAt c 4 : ℚ) * (2 / 3 / 8) else 0)
  + (if 8 ≤ c.length then (charAt c 6 : ℚ) * (2 / 3 / 8 / 10) else 0)
  + ∑ j ∈ Finset.range (c.length - 8),
      (if charAt c (8 + j) = 3 ∨ charAt c (8 + j) = 4
       then 2 / 3 / 8 / 10 / 2 ^ (j + 1) else 0)

/-- Closed form of the decoded (south-west) longitude of one code. -/
def lonOf (c : List Char) : ℚ :=
  (parseNat (slice c 2 4) : ℚ) + 100
  + (if 6 ≤ c.length then (charAt c 5 : ℚ) * (1 / 8) else 0)
  + (if 8 ≤ c.length then (charAt c 7 : ℚ) * (1 / 8 / 10) else 0)
  + ∑ j ∈ Finset.range (c.length - 8),
      (if charAt c (8 + j) = 2 ∨ charAt c (8 + j) = 4
       then 1 / 8 / 10 / 2 ^ (j + 1) else 0)

/-- Closed form of the final `lat_delta` for a code of length `n`. -/
def latDeltaOf (n : ℕ) : ℚ :=
  2 / 3 / (if 6 ≤ n then 8 else 1) / (if 8 ≤ n then 10 else 1) / 2 ^ (n - 8)

/-- Closed form of the final `lon_delta` for a code of length `n`. -/
def lonDeltaOf (n : ℕ) : ℚ :=
  1 / (if 6 ≤ n then 8 else 1) / (if 8 ≤ n then 10 else 1) / 2 ^ (n - 8)

lemma stepI_of_ge (i : ℕ) (c : List Char) (st : DecSt) (h : c.length ≤ i) :
    stepI i c st = st := by
  unfold stepI; rw [if_neg (not_lt.mpr h)]

lemma foldl_stepI_inactive (c : List Char) (l : List ℕ) (st : DecSt)
    (h : ∀ i ∈ l, c.length ≤ i) :
    l.foldl (fun s i => stepI i c s) st = st := by
  induction l generalizing st with
  | nil => rfl
  | cons a l ih =>
    rw [List.foldl_cons, stepI_of_ge a c st (h a (by simp))]
    exact ih st fun i hi => h i (by simp [hi])

lemma foldl_stepI_active (c : List Char) :
    ∀ (k s : ℕ) (st : DecSt), s + k ≤ c.length →
    (List.range' s k).foldl (fun st i => stepI i c st) st =
      ⟨st.lat + ∑ j ∈ Finset.range k,
          (if charAt c (s + j) = 3 ∨ charAt c (s + j) = 4
           then st.latDelta / 2 ^ (j + 1) else 0),
       st.lon + ∑ j ∈ Finset.range k,
          (if charAt c (s + j) = 2 ∨ charAt c (s + j) = 4
           then st.lonDelta / 2 ^ (j + 1) else 0),
       st.latDelta / 2 ^ k, st.lonDelta / 2 ^ k⟩ := by
  intro k
  induction k with
  | zero =>
    intro s st _
    cases st
    simp [List.range']
  | succ k ih =>
    intro s st h
    rw [List.range'_succ, List.foldl_cons]
    have hs : s < c.length := by omega
    have hstep : stepI s c st =
        ⟨st.lat + (if charAt c s = 3 ∨ charAt c s = 4 then st.latDelta / 2 else 0),
         st.lon + (if charAt c s = 2 ∨ charAt c s = 4 then st.lonDelta / 2 else 0),
         st.latDelta / 2, st.lonDelta / 2⟩ := by
      unfold stepI; rw [if_pos hs]
    rw [hstep, ih (s + 1) _ (by omega)]
    dsimp only
    simp only [DecSt.mk.injEq]
    refine ⟨?_, ?_, ?_, ?_⟩
    · rw [Finset.sum_range_succ']
      rw [Finset.sum_congr rfl (fun j _ => ?term)]
      case term =>
        have hidx : s + 1 + j = s + (j + 1) := by omega
        rw [hidx, div_div, ← pow_succ']
      simp only [Nat.add_zero, Nat.zero_add, pow_one]
      ring
    · rw [Finset.sum_range_succ']
      rw [Finset.sum_congr rfl (fun j _ => ?term2)]
      case term2 =>
        have hidx : s + 1 + j = s + (j + 1) := by omega
        rw [hidx, div_div, ← pow_succ']
      simp only [Nat.add_zero, Nat.zero_add, pow_one]
      ring
    · rw [div_div, ← pow_succ']
    · rw [div_div, ← pow_succ']

/-- Master closed form: the per-element accumulation depends only on the
code itself whenever the batch bound `m` is at least the code's length. -/
lemma decodeCell_eq (c : List Char) (m : ℕ) (h : c.length ≤ m) :
    decodeCell c m = ⟨latOf c, lonOf c, latDeltaOf c.length, lonDeltaOf c.length⟩ := by
  unfold decodeCell latOf lonOf latDeltaOf lonDeltaOf
  by_cases h8 : 8 ≤ c.length
  · have h6 : 6 ≤ c.length := by omega
    have hlist : List.range' 8 (m - 8) =
        List.range' 8 (c.length - 8) ++
          List.range' (8 + (c.length - 8)) (m - c.length) := by
      rw [List.range'_append_1]
      congr 1
      omega
    rw [hlist, List.foldl_append]
    have hact := foldl_stepI_active c (c.length - 8) 8
      (stage3 c (stage2 c (stage1 c))) (by omega)
    rw [hact, foldl_stepI_inactive]
    · unfold stage3 stage2 stage1
      rw [if_pos h6, if_pos h8]
      simp only [if_pos h6, if_pos h8]
    · intro i hi
      have := List.mem_range'_1.mp hi
      omega
  · rw [foldl_stepI_inactive]
    · by_cases h6 : 6 ≤ c.length
      · unfold stage3 stage2 stage1
        rw [if_neg h8, if_pos h6]
        simp only [if_pos h6, if_neg h8]
        have hn : c.length - 8 = 0 := by omega
        simp [hn]
      · unfold stage3 stage2 stage1
        rw [if_neg h8, if_neg h6]
        simp only [if_neg h6, if_neg h8]
        have hn : c.length - 8 = 0 := by omega
        simp [hn]
    · intro i hi
      have := List.mem_range'_1.mp hi
      omega

lemma foldl_max_init_le (l : List (List Char)) :
    ∀ a : ℕ, a ≤ l.foldl (fun x y => max x y.length) a := by
  induction l with
  | nil => intro a; exact le_rfl
  | cons c l ih =>
    intro a
    exact le_trans (le_max_left a c.length) (ih _)

lemma length_le_foldl_max (l : List (List Char)) (c : List Char) (hc : c ∈ l) :
    ∀ a : ℕ, c.length ≤ l.foldl (fun x y => max x y.length) a := by
  induction l with
  | nil => cases hc
  | cons d l ih =>
    intro a
    rcases List.mem_cons.mp hc with h | h
    · subst h
      rw [List.foldl_cons]
      exact le_trans (le_max_right a c.length) (foldl_max_init_le l _)
    · rw [List.foldl_cons]
      exact ih h _

lemma maxLen_singleton (c : List Char) :
    [c].foldl (fun a d => max a d.length) 0 = c.length := by
  simp

lemma vec_single_sw (c : List Char) :
    meshcode_to_latlon_vectorized [c] "sw" =
      Except.ok [CoordRec.point (latOf c) (lonOf c)] := by
  unfold meshcode_to_latlon_vectorized
  rw [if_neg (by simp)]
  simp [maxLen_singleton, decodeCell_eq c c.length le_rfl]

lemma vec_single_center (c : List Char) :
    meshcode_to_latlon_vectorized [c] "center" =
      Except.ok [CoordRec.point (latOf c + latDeltaOf c.length / 2)
        (lonOf c + lonDeltaOf c.length / 2)] := by
  unfold meshcode_to_latlon_vectorized
  rw [if_neg (by simp)]
  simp [maxLen_singleton, decodeCell_eq c c.length le_rfl]

lemma vec_single_bbox (c : List Char) :
    meshcode_to_latlon_vectorized [c] "bbox" =
      Except.ok [CoordRec.box (latOf c) (lonOf c)
        (latOf c + latDeltaOf c.length) (lonOf c + lonDeltaOf c.length)] := by
  unfold meshcode_to_latlon_vectorized
  rw [if_neg (by simp)]
  simp [maxLen_singleton, decodeCell_eq c c.length le_rfl]

lemma vec_invalid_mode (codes : List (List Char)) (mode : String)
    (hne : codes ≠ []) (h1 : mode ≠ "sw") (h2 : mode ≠ "center")
    (h3 : mode ≠ "bbox") :
    meshcode_to_latlon_vectorized codes mode =
      Except.error ("Invalid mode: " ++ mode) := by
  unfold meshcode_to_latlon_vectorized
  rw [if_neg (by simpa using hne)]
  rw [if_neg h1, if_neg h2, if_neg h3]

lemma decode_sw (c : List Char) :
    meshcode_to_latlon c "sw" = Except.ok (CoordRec.point (latOf c) (lonOf c)) := by
  unfold meshcode_to_latlon
  rw [vec_single_sw]

lemma decode_center (c : List Char) :
    meshcode_to_latlon c "center" =
      Except.ok (CoordRec.point (latOf c + latDeltaOf c.length / 2)
        (lonOf c + lonDeltaOf c.length / 2)) := by
  unfold meshcode_to_latlon
  rw [vec_single_center]

lemma decode_bbox (c : List Char) :
    meshcode_to_latlon c "bbox" =
      Except.ok (CoordRec.box (latOf c) (lonOf c)
        (latOf c + latDeltaOf c.length) (lonOf c + lonDeltaOf c.length)) := by
  unfold meshcode_to_latlon
  rw [vec_single_bbox]

lemma decode_invalid_mode (c : List Char) (mode : String)
    (h1 : mode ≠ "sw") (h2 : mode ≠ "center") (h3 : mode ≠ "bbox") :
    meshcode_to_latlon c mode = Except.error ("Invalid mode: " ++ mode) := by
  unfold meshcode_to_latlon
  rw [vec_invalid_mode [c] mode (by simp) h1 h2 h3]

lemma slice_take (c : List Char) (i j m : ℕ) (h : j ≤ m) :
    slice (c.take m) i j = slice c i j := by
  unfold slice
  rw [List.take_take, min_eq_left h]

lemma charAt_take (c : List Char) (i m : ℕ) (h : i < m) :
    charAt (c.take m) i = charAt c i := by
  unfold charAt
  rw [List.get?_take h]

lemma slice_append (c d : List Char) (i j : ℕ) (h : j ≤ c.length) :
    slice (c ++ d) i j = slice c i j := by
  unfold slice
  rw [List.take_append_of_le_length h]

lemma charDigit_zero_char : charDigit '0' = 0 := by decide

lemma charAt_append_zeros (c : List Char) (k i : ℕ) :
    charAt (c ++ List.replicate k '0') i =
      if i < c.length then charAt c i else 0 := by
  unfold charAt
  by_cases h : i < c.length
  · rw [if_pos h, List.get?_append h]
  · rw [if_neg h, List.get?_append_right (not_lt.mp h)]
    rw [List.get?_eq_getElem?, List.getElem?_replicate]
    by_cases hk : i - c.length < k
    · rw [if_pos hk]
      exact charDigit_zero_char
    · rw [if_neg hk]

lemma vec_batch_sw (codes : List (List Char)) (hne : codes ≠ []) :
    meshcode_to_latlon_vectorized codes "sw" =
      Except.ok (codes.map fun c => CoordRec.point (latOf c) (lonOf c)) := by
  unfold meshcode_to_latlon_vectorized
  rw [if_neg (by simpa using hne)]
  simp only [List.map_map, if_pos rfl]
  refine congrArg Except.ok (List.map_congr_left fun c hc => ?_)
  simp only [Function.comp_apply,
    decodeCell_eq c _ (length_le_foldl_max codes c hc 0)]

lemma vec_batch_center (codes : List (List Char)) (hne : codes ≠ []) :
    meshcode_to_latlon_vectorized codes "center" =
      Except.ok (codes.map fun c =>
        CoordRec.point (latOf c + latDeltaOf c.length / 2)
          (lonOf c + lonDeltaOf c.length / 2)) := by
  unfold meshcode_to_latlon_vectorized
  rw [if_neg (by simpa using hne)]
  rw [if_neg (by decide), if_pos rfl]
  simp only [List.map_map]
  refine congrArg Except.ok (List.map_congr_left fun c hc => ?_)
  simp only [Function.comp_apply,
    decodeCell_eq c _ (length_le_foldl_max codes c hc 0)]

lemma vec_batch_bbox (codes : List (List Char)) (hne : codes ≠ []) :
    meshcode_to_latlon_vectorized codes "bbox" =
      Except.ok (codes.map fun c =>
        CoordRec.box (latOf c) (lonOf c)
          (latOf c + latDeltaOf c.length) (lonOf c + lonDeltaOf c.length)) := by
  unfold meshcode_to_latlon_vectorized
  rw [if_neg (by simpa using hne)]
  rw [if_neg (by decide), if_neg (by decide), if_pos rfl]
  simp only [List.map_map]
  refine congrArg Except.ok (List.map_congr_left fun c hc => ?_)
  simp only [Function.comp_apply,
    decodeCell_eq c _ (length_le_foldl_max codes c hc 0)]

lemma latOf_len5 (c : List Char) (h : c.length = 5) :
    latOf c = latOf (c.take 4) := by
  unfold latOf
  have hl : (c.take 4).length = 4 := by
    rw [List.length_take]; omega
  rw [h, hl, slice_take c 0 2 4 (by omega)]
  norm_num

lemma lonOf_len5 (c : List Char) (h : c.length = 5) :
    lonOf c = lonOf (c.take 4) := by
  unfold lonOf
  have hl : (c.take 4).length = 4 := by
    rw [List.length_take]; omega
  rw [h, hl, slice_take c 2 4 4 (by omega)]
  norm_num

lemma latOf_len7 (c : List Char) (h : c.length = 7) :
    latOf c = latOf (c.take 6) := by
  unfold latOf
  have hl : (c.take 6).length = 6 := by
    rw [List.length_take]; omega
  rw [h, hl, slice_take c 0 2 6 (by omega), charAt_take c 4 6 (by omega)]
  norm_num

lemma lonOf_len7 (c : List Char) (h : c.length = 7) :
    lonOf c = lonOf (c.take 6) := by
  unfold lonOf
  have hl : (c.take 6).length = 6 := by
    rw [List.length_take]; omega
  rw [h, hl, slice_take c 2 4 6 (by omega), charAt_take c 5 6 (by omega)]
  norm_num

/-- Claim C2: for every mesh code of full length for its level, the bbox
returned by decode has dimensions determined solely by the level: height
`2/3` and width `1` at level 1 (4 characters); `1/12` and `1/8` at level 2
(6 characters); `1/120` and `1/80` at level 3 (8 characters); and each of
levels 4–6 (9, 10, 11 characters) exactly halves both dimensions of its
parent: `1/240` and `1/160`, then `1/480` and `1/320`, then `1/960` and
`1/640`. -/
theorem C2_cell_size :
    (∀ c : List Char, DigitStr c → c.length = 4 →
      ∃ a b, meshcode_to_latlon c "bbox" =
        Except.ok (CoordRec.box a b (a + 2 / 3) (b + 1))) ∧
    (∀ c : List Char, DigitStr c → c.length = 6 →
      ∃ a b, meshcode_to_latlon c "bbox" =
        Except.ok (CoordRec.box a b (a + 1 / 12) (b + 1 / 8))) ∧
    (∀ c : List Char, DigitStr c → c.length = 8 →
      ∃ a b, meshcode_to_latlon c "bbox" =
        Except.ok (CoordRec.box a b (a + 1 / 120) (b + 1 / 80))) ∧
    (∀ c : List Char, DigitStr c → c.length = 9 →
      ∃ a b, meshcode_to_latlon c "bbox" =
        Except.ok (CoordRec.box a b (a + 1 / 240) (b + 1 / 160))) ∧
    (∀ c : List Char, DigitStr c → c.length = 10 →
      ∃ a b, meshcode_to_latlon c "bbox" =
        Except.ok (CoordRec.box a b (a + 1 / 480) (b + 1 / 320))) ∧
    (∀ c : List Char, DigitStr c → c.length = 11 →
      ∃ a b, meshcode_to_latlon c "bbox" =
        Except.ok (CoordRec.box a b (a + 1 / 960) (b + 1 / 640))) := by
  refine ⟨?_, ?_, ?_, ?_, ?_, ?_⟩ <;>
    · intro c _ hlen
      refine ⟨latOf c, lonOf c, ?_⟩
      rw [decode_bbox, hlen]
      norm_num [latDeltaOf, lonDeltaOf]

/-- Witness for C2 at the concrete level-1 code `"5339"`. -/
theorem C2_cell_size_witness :
    ∃ a b, meshcode_to_latlon ['5', '3', '3', '9'] "bbox" =
      Except.ok (CoordRec.box a b (a + 2 / 3) (b + 1)) :=
  C2_cell_size.1 ['5', '3', '3', '9'] (by decide) (by decide)

/-- Claim C9: a 5-character digit code decodes, in every mode, exactly as
its first 4 characters (the unpaired fifth digit contributes no offset and
the deltas remain the level-1 sizes, as witnessed by the level-1 bbox
dimensions), and a 7-character code decodes exactly as its first 6
characters. -/
theorem C9_unpaired_digit_discard :
    (∀ (c : List Char) (mode : String), DigitStr c → c.length = 5 →
        meshcode_to_latlon c mode = meshcode_to_latlon (c.take 4) mode) ∧
    (∀ (c : List Char) (mode : String), DigitStr c → c.length = 7 →
        meshcode_to_latlon c mode = meshcode_to_latlon (c.take 6) mode) ∧
    (∀ c : List Char, DigitStr c → c.length = 5 →
        ∃ a b, meshcode_to_latlon c "bbox" =
          Except.ok (CoordRec.box a b (a + 2 / 3) (b + 1))) := by
  refine ⟨?_, ?_, ?_⟩
  · intro c mode _ h5
    have hl : (c.take 4).length = 4 := by
      rw [List.length_take]; omega
    by_cases hsw : mode = "sw"
    · subst hsw
      rw [decode_sw, decode_sw, latOf_len5 c h5, lonOf_len5 c h5]
    by_cases hce : mode = "center"
    · subst hce
      rw [decode_center, decode_center, latOf_len5 c h5, lonOf_len5 c h5,
        h5, hl]
      norm_num [latDeltaOf, lonDeltaOf]
    by_cases hbb : mode = "bbox"
    · subst hbb
      rw [decode_bbox, decode_bbox, latOf_len5 c h5, lonOf_len5 c h5, h5, hl]
      norm_num [latDeltaOf, lonDeltaOf]
    · rw [decode_invalid_mode c mode hsw hce hbb,
        decode_invalid_mode (c.take 4) mode hsw hce hbb]
  · intro c mode _ h7
    have hl : (c.take 6).length = 6 := by
      rw [List.length_take]; omega
    by_cases hsw : mode = "sw"
    · subst hsw
      rw [decode_sw, decode_sw, latOf_len7 c h7, lonOf_len7 c h7]
    by_cases hce : mode = "center"
    · subst hce
      rw [decode_center, decode_center, latOf_len7 c h7, lonOf_len7 c h7,
        h7, hl]
      norm_num [latDeltaOf, lonDeltaOf]
    by_cases hbb : mode = "bbox"
    · subst hbb
      rw [decode_bbox, decode_bbox, latOf_len7 c h7, lonOf_len7 c h7, h7, hl]
      norm_num [latDeltaOf, lonDeltaOf]
    · rw [decode_invalid_mode c mode hsw hce hbb,
        decode_invalid_mode (c.take 6) mode hsw hce hbb]
  · intro c _ h5
    refine ⟨latOf c, lonOf c, ?_⟩
    rw [decode_bbox, h5]
    norm_num [latDeltaOf, lonDeltaOf]

/-- Witness for C9 at the concrete 5-character code `"53395"`. -/
theorem C9_unpaired_digit_discard_witness :
    meshcode_to_latlon ['5', '3', '3', '9', '5'] "sw" =
      meshcode_to_latlon (['5', '3', '3', '9', '5'].take 4) "sw" :=
  C9_unpaired_digit_discard.1 ['5', '3', '3', '9', '5'] "sw"
    (by decide) (by decide)

lemma latOf_append_zeros (c : List Char) (k : ℕ) (h4 : 4 ≤ c.length)
    (h5 : c.length ≠ 5) (h7 : c.length ≠ 7) :
    latOf (c ++ List.replicate k '0') = latOf c := by
  unfold latOf
  have hlen : (c ++ List.replicate k '0').length = c.length + k := by simp
  rw [hlen, slice_append c _ 0 2 (by omega)]
  have ht2 : (if 6 ≤ c.length + k
        then ((charAt (c ++ List.replicate k '0') 4 : ℕ) : ℚ) * (2 / 3 / 8) else 0)
      = (if 6 ≤ c.length then ((charAt c 4 : ℕ) : ℚ) * (2 / 3 / 8) else 0) := by
    rw [charAt_append_zeros]
    by_cases h6 : 6 ≤ c.length
    · rw [if_pos (by omega : (4:ℕ) < c.length), if_pos (by omega), if_pos h6]
    · have hc4 : c.length = 4 := by omega
      rw [if_neg (by omega : ¬ (4:ℕ) < c.length), if_neg h6]
      simp
  have ht3 : (if 8 ≤ c.length + k
        then ((charAt (c ++ List.replicate k '0') 6 : ℕ) : ℚ) * (2 / 3 / 8 / 10) else 0)
      = (if 8 ≤ c.length then ((charAt c 6 : ℕ) : ℚ) * (2 / 3 / 8 / 10) else 0) := by
    rw [charAt_append_zeros]
    by_cases h8 : 8 ≤ c.length
    · rw [if_pos (by omega : (6:ℕ) < c.length), if_pos (by omega), if_pos h8]
    · have hc46 : c.length = 4 ∨ c.length = 6 := by omega
      rw [if_neg (by omega : ¬ (6:ℕ) < c.length), if_neg h8]
      simp
  rw [ht2, ht3]
  have hsum : (∑ j ∈ Finset.range (c.length + k - 8),
        if charAt (c ++ List.replicate k '0') (8 + j) = 3 ∨
           charAt (c ++ List.replicate k '0') (8 + j) = 4
        then 2 / 3 / 8 / 10 / 2 ^ (j + 1) else (0:ℚ))
      = ∑ j ∈ Finset.range (c.length - 8),
        if charAt c (8 + j) = 3 ∨ charAt c (8 + j) = 4
        then 2 / 3 / 8 / 10 / 2 ^ (j + 1) else (0:ℚ) := by
    have hconv : ∀ j ∈ Finset.range (c.length + k - 8),
        (if charAt (c ++ List.replicate k '0') (8 + j) = 3 ∨
            charAt (c ++ List.replicate k '0') (8 + j) = 4
         then 2 / 3 / 8 / 10 / 2 ^ (j + 1) else (0:ℚ))
        = (if 8 + j < c.length then
            (if charAt c (8 + j) = 3 ∨ charAt c (8 + j) = 4
             then 2 / 3 / 8 / 10 / 2 ^ (j + 1) else (0:ℚ)) else 0) := by
      intro j _
      rw [charAt_append_zeros]
      by_cases hj : 8 + j < c.length
      · rw [if_pos hj, if_pos hj]
      · rw [if_neg hj, if_neg hj]
        norm_num
    rw [Finset.sum_congr rfl hconv]
    rw [← Finset.sum_subset
      (Finset.range_subset.mpr (by omega : c.length - 8 ≤ c.length + k - 8))
      (fun x _ hx => by
        rw [if_neg (by simp at hx ⊢; omega : ¬ 8 + x < c.length)])]
    exact Finset.sum_congr rfl fun j hj => by
      rw [if_pos (by simp at hj; omega : 8 + j < c.length)]
  rw [hsum]

lemma lonOf_append_zeros (c : List Char) (k : ℕ) (h4 : 4 ≤ c.length)
    (h5 : c.length ≠ 5) (h7 : c.length ≠ 7) :
    lonOf (c ++ List.replicate k '0') = lonOf c := by
  unfold lonOf
  have hlen : (c ++ List.replicate k '0').length = c.length + k := by simp
  rw [hlen, slice_append c _ 2 4 (by omega)]
  have ht2 : (if 6 ≤ c.length + k
        then ((charAt (c ++ List.replicate k '0') 5 : ℕ) : ℚ) * (1 / 8) else 0)
      = (if 6 ≤ c.length then ((charAt c 5 : ℕ) : ℚ) * (1 / 8) else 0) := by
    rw [charAt_append_zeros]
    by_cases h6 : 6 ≤ c.length
    · rw [if_pos (by omega : (5:ℕ) < c.length), if_pos (by omega), if_pos h6]
    · have hc4 : c.length = 4 := by omega
      rw [if_neg (by omega : ¬ (5:ℕ) < c.length), if_neg h6]
      simp
  have ht3 : (if 8 ≤ c.length + k
        then ((charAt (c ++ List.replicate k '0') 7 : ℕ) : ℚ) * (1 / 8 / 10) else 0)
      = (if 8 ≤ c.length then ((charAt c 7 : ℕ) : ℚ) * (1 / 8 / 10) else 0) := by
    rw [charAt_append_zeros]
    by_cases h8 : 8 ≤ c.length
    · rw [if_pos (by omega : (7:ℕ) < c.length), if_pos (by omega), if_pos h8]
    · rw [if_neg (by omega : ¬ (7:ℕ) < c.length), if_neg h8]
      simp
  rw [ht2, ht3]
  have hsum : (∑ j ∈ Finset.range (c.length + k - 8),
        if charAt (c ++ List.replicate k '0') (8 + j) = 2 ∨
           charAt (c ++ List.replicate k '0') (8 + j) = 4
        then 1 / 8 / 10 / 2 ^ (j + 1) else (0:ℚ))
      = ∑ j ∈ Finset.range (c.length - 8),
        if charAt c (8 + j) = 2 ∨ charAt c (8 + j) = 4
        then 1 / 8 / 10 / 2 ^ (j + 1) else (0:ℚ) := by
    have hconv : ∀ j ∈ Finset.range (c.length + k - 8),
        (if charAt (c ++ List.replicate k '0') (8 + j) = 2 ∨
            charAt (c ++ List.replicate k '0') (8 + j) = 4
         then 1 / 8 / 10 / 2 ^ (j + 1) else (0:ℚ))
        = (if 8 + j < c.length then
            (if charAt c (8 + j) = 2 ∨ charAt c (8 + j) = 4
             then 1 / 8 / 10 / 2 ^ (j + 1) else (0:ℚ)) else 0) := by
      intro j _
      rw [charAt_append_zeros]
      by_cases hj : 8 + j < c.length
      · rw [if_pos hj, if_pos hj]
      · rw [if_neg hj, if_neg hj]
        norm_num
    rw [Finset.sum_congr rfl hconv]
    rw [← Finset.sum_subset
      (Finset.range_subset.mpr (by omega : c.length - 8 ≤ c.length + k - 8))
      (fun x _ hx => by
        rw [if_neg (by simp at hx ⊢; omega : ¬ 8 + x < c.length)])]
    exact Finset.sum_congr rfl fun j hj => by
      rw [if_pos (by simp at hj; omega : 8 + j < c.length)]
  rw [hsum]

/-- Claim C8 (amended): for every digit mesh code of length at least 4 whose
length is not 5 and not 7, decode raises no error in any supported mode, and
filling any number of absent trailing character slots with the digit `0`
leaves the decoded latitude and longitude unchanged.  (For lengths 5 and 7
the absent slot is NOT equivalent to digit 0: writing a `0` there activates
the previously ignored unpaired digit; those codes instead decode as their
first 4 resp. 6 characters, per C9.) -/
theorem C8_silent_zero (c : List Char) (hd : DigitStr c) (h4 : 4 ≤ c.length)
    (h5 : c.length ≠ 5) (h7 : c.length ≠ 7) :
    (∀ mode : String, mode = "sw" ∨ mode = "center" ∨ mode = "bbox" →
      ∃ r, meshcode_to_latlon c mode = Except.ok r) ∧
    ∀ k : ℕ, ∃ la lo,
      meshcode_to_latlon c "sw" = Except.ok (CoordRec.point la lo) ∧
      meshcode_to_latlon (c ++ List.replicate k '0') "sw" =
        Except.ok (CoordRec.point la lo) := by
  constructor
  · intro mode hmode
    rcases hmode with h | h | h <;> subst h
    · exact ⟨_, decode_sw c⟩
    · exact ⟨_, decode_center c⟩
    · exact ⟨_, decode_bbox c⟩
  · intro k
    refine ⟨latOf c, lonOf c, decode_sw c, ?_⟩
    rw [decode_sw, latOf_append_zeros c k h4 h5 h7,
      lonOf_append_zeros c k h4 h5 h7]

/-- Counterexample to C8 as stated: for the 5-character code `"53395"`,
treating the absent sixth slot as digit `0` (i.e. decoding `"533950"`)
changes the decoded latitude: the unpaired fifth digit `5`, ignored in
`"53395"`, becomes an active level-2 digit in `"533950"`. -/
theorem C8_silent_zero_counterexample :
    meshcode_to_latlon ['5', '3', '3', '9', '5'] "sw" =
      Except.ok (CoordRec.point (106 / 3) 139) ∧
    meshcode_to_latlon (['5', '3', '3', '9', '5'] ++ List.replicate 1 '0') "sw" =
      Except.ok (CoordRec.point (143 / 4) 139) ∧
    (106 / 3 : ℚ) ≠ 143 / 4 := by
  refine ⟨?_, ?_, by norm_num⟩
  · rw [decode_sw]
    unfold latOf lonOf
    rw [show parseNat (slice ['5', '3', '3', '9', '5'] 0 2) = 53 from by decide,
      show parseNat (slice ['5', '3', '3', '9', '5'] 2 4) = 39 from by decide]
    norm_num
  · rw [decode_sw]
    unfold latOf lonOf
    rw [show parseNat
        (slice (['5', '3', '3', '9', '5'] ++ List.replicate 1 '0') 0 2) = 53
        from by decide,
      show parseNat
        (slice (['5', '3', '3', '9', '5'] ++ List.replicate 1 '0') 2 4) = 39
        from by decide,
      show charAt (['5', '3', '3', '9', '5'] ++ List.replicate 1 '0') 4 = 5
        from by decide,
      show charAt (['5', '3', '3', '9', '5'] ++ List.replicate 1 '0') 5 = 0
        from by decide]
    norm_num

/-- Witness for C8 at the concrete 4-character code `"5339"` padded by two
zeros. -/
theorem C8_silent_zero_witness :
    ∃ la lo,
      meshcode_to_latlon ['5', '3', '3', '9'] "sw" =
        Except.ok (CoordRec.point la lo) ∧
      meshcode_to_latlon (['5', '3', '3', '9'] ++ List.replicate 2 '0') "sw" =
        Except.ok (CoordRec.point la lo) :=
  (C8_silent_zero ['5', '3', '3', '9'] (by decide) (by decide)
    (by decide) (by decide)).2 2

/-- Claim C6 (amended): for every nonempty batch of digit mesh codes of
length ≥ 4, decode fails with the `InvalidArgument` error
`"Invalid mode: <mode>"` exactly when the mode is none of `sw`, `center`,
`bbox`, and the call is atomic: either every element is decoded (a full
result list of the same length is returned) or the whole call fails.  (On
the empty batch the source instead crashes with a NaN-conversion
`ValueError` before reaching the mode check, for every mode.) -/
theorem C6_mode_validation (codes : List (List Char)) (mode : String)
    (hne : codes ≠ [])
    (hcodes : ∀ c ∈ codes, DigitStr c ∧ 4 ≤ c.length) :
    (meshcode_to_latlon_vectorized codes mode =
        Except.error ("Invalid mode: " ++ mode)
      ↔ (mode ≠ "sw" ∧ mode ≠ "center" ∧ mode ≠ "bbox")) ∧
    ((∃ rs, meshcode_to_latlon_vectorized codes mode = Except.ok rs ∧
        rs.length = codes.length) ∨
      meshcode_to_latlon_vectorized codes mode =
        Except.error ("Invalid mode: " ++ mode)) := by
  by_cases hsw : mode = "sw"
  · subst hsw
    rw [vec_batch_sw codes hne]
    exact ⟨by simp, Or.inl ⟨_, rfl, by simp⟩⟩
  by_cases hce : mode = "center"
  · subst hce
    rw [vec_batch_center codes hne]
    exact ⟨by simp, Or.inl ⟨_, rfl, by simp⟩⟩
  by_cases hbb : mode = "bbox"
  · subst hbb
    rw [vec_batch_bbox codes hne]
    exact ⟨by simp, Or.inl ⟨_, rfl, by simp⟩⟩
  · rw [vec_invalid_mode codes mode hne hsw hce hbb]
    exact ⟨by simp [hsw, hce, hbb], Or.inr rfl⟩

/-- Counterexample to C6 as stated: on the empty batch with an invalid mode
the call fails with the NaN-conversion error raised by `int(max_len)`, not
with the `InvalidArgument` error, because the crash happens before the mode
check; so "fails with InvalidArgument iff the mode is invalid" is false for
the batch `[]`. -/
theorem C6_mode_validation_counterexample :
    meshcode_to_latlon_vectorized [] "xyz" =
      Except.error "cannot convert float NaN to integer" ∧
    "cannot convert float NaN to integer" ≠ "Invalid mode: " ++ "xyz" := by
  exact ⟨rfl, by decide⟩

/-- Witness for C6 at a concrete singleton batch and the invalid mode
`"nw"`. -/
theorem C6_mode_validation_witness :
    meshcode_to_latlon_vectorized [['5', '3', '3', '9']] "nw" =
        Except.error ("Invalid mode: " ++ "nw")
      ↔ ("nw" ≠ "sw" ∧ "nw" ≠ "center" ∧ "nw" ≠ "bbox") :=
  (C6_mode_validation [['5', '3', '3', '9']] "nw" (by decide)
    (fun c hc => by
      simp only [List.mem_singleton] at hc
      subst hc
      exact ⟨by decide, by decide⟩)).1

/-- Claim C4 (amended): for every nonempty ordered batch of digit mesh
codes (digit strings of length at least 4, the codes of the data model, on
which the source's `astype` parses never raise) and every supported mode,
decoding the batch succeeds with exactly N records, aligned by position
with the input, each equal to the result of decoding that code alone; and
a scalar digit code returns the single coordinate record that the size-1
batch wraps in a list.  (The empty batch instead fails with the
NaN-conversion error, so the claim's "every batch" must exclude N = 0.) -/
theorem C4_batch_scalar (mode : String)
    (hm : mode = "sw" ∨ mode = "center" ∨ mode = "bbox") :
    (∀ codes : List (List Char), codes ≠ [] →
      (∀ c ∈ codes, DigitStr c ∧ 4 ≤ c.length) →
      ∃ res, meshcode_to_latlon_vectorized codes mode = Except.ok res ∧
        res.length = codes.length ∧
        ∀ (i : ℕ) (hi : i < codes.length) (hr : i < res.length),
          meshcode_to_latlon (codes.get ⟨i, hi⟩) mode =
            Except.ok (res.get ⟨i, hr⟩)) ∧
    (∀ (c : List Char) (r : CoordRec), DigitStr c → 4 ≤ c.length →
      (meshcode_to_latlon c mode = Except.ok r ↔
        meshcode_to_latlon_vectorized [c] mode = Except.ok [r])) := by
  rcases hm with h | h | h <;> subst h
  · constructor
    · intro codes hne hcodes
      refine ⟨_, vec_batch_sw codes hne, by simp, ?_⟩
      intro i hi hr
      rw [decode_sw]
      simp
    · intro c r hdig hlen
      rw [decode_sw, vec_single_sw]
      constructor
      · rintro h; injection h with h; rw [← h]
      · rintro h; injection h with h
        injection h with h
        rw [h]
  · constructor
    · intro codes hne hcodes
      refine ⟨_, vec_batch_center codes hne, by simp, ?_⟩
      intro i hi hr
      rw [decode_center]
      simp
    · intro c r hdig hlen
      rw [decode_center, vec_single_center]
      constructor
      · rintro h; injection h with h; rw [← h]
      · rintro h; injection h with h
        injection h with h
        rw [h]
  · constructor
    · intro codes hne hcodes
      refine ⟨_, vec_batch_bbox codes hne, by simp, ?_⟩
      intro i hi hr
      rw [decode_bbox]
      simp
    · intro c r hdig hlen
      rw [decode_bbox, vec_single_bbox]
      constructor
      · rintro h; injection h with h; rw [← h]
      · rintro h; injection h with h
        injection h with h
        rw [h]

lemma truncInt_of_nonneg (q : ℚ) (h : 0 ≤ q) : truncInt q = ⌊q⌋ := by
  unfold truncInt
  rw [if_neg (not_lt.mpr h)]

lemma charDigit_digitChar (d : ℕ) (h : d < 10) :
    charDigit (digitChar d) = d := by
  interval_cases d <;> decide

lemma natStr_of_lt_ten (n : ℕ) (h : n < 10) : natStr n = [digitChar n] := by
  rw [natStr, dif_pos h]

lemma natStr_two_digits (n : ℕ) (h1 : 10 ≤ n) (h2 : n < 100) :
    natStr n = [digitChar (n / 10), digitChar (n % 10)] := by
  rw [natStr, dif_neg (by omega), natStr_of_lt_ten (n / 10) (by omega)]
  rfl

lemma intStr_of_nonneg (n : ℤ) (h : 0 ≤ n) : intStr n = natStr n.toNat := by
  unfold intStr
  rw [if_neg (not_lt.mpr h)]

lemma intStr_digit (n : ℤ) (h0 : 0 ≤ n) (h9 : n < 10) :
    intStr n = [digitChar n.toNat] := by
  rw [intStr_of_nonneg n h0, natStr_of_lt_ten n.toNat (by omega)]

lemma zfill2_natStr (n : ℕ) (h : n < 100) :
    zfill2 (natStr n) = [digitChar (n / 10), digitChar (n % 10)] := by
  by_cases h10 : n < 10
  · rw [natStr_of_lt_ten n h10]
    unfold zfill2
    rw [if_pos (by simp)]
    have hd : digitChar (n / 10) = '0' := by
      rw [show n / 10 = 0 from by omega]
      decide
    rw [hd, show n % 10 = n from by omega]
    rfl
  · rw [natStr_two_digits n (by omega) h]
    unfold zfill2
    rw [if_neg (by simp)]

lemma parseNat_two (u v : ℕ) (hu : u < 10) (hv : v < 10) :
    parseNat [digitChar u, digitChar v] = 10 * u + v := by
  unfold parseNat
  simp [List.foldl, charDigit_digitChar u hu, charDigit_digitChar v hv]
  omega

/-- The fractional-cascade value scaled by 8 (level-2 input). -/
def lv2 (t : ℚ) : ℚ := Int.fract t * 8

/-- The fractional-cascade value scaled by 10 (level-3 input). -/
def lv3 (t : ℚ) : ℚ := Int.fract (lv2 t) * 10

/-- The fractional-cascade value scaled by 2 (level-4 input). -/
def lv4 (t : ℚ) : ℚ := Int.fract (lv3 t) * 2

/-- The fractional-cascade value scaled by 2 (level-5 input). -/
def lv5 (t : ℚ) : ℚ := Int.fract (lv4 t) * 2

/-- The fractional-cascade value scaled by 2 (level-6 input). -/
def lv6 (t : ℚ) : ℚ := Int.fract (lv5 t) * 2

lemma lv2_eq (t : ℚ) : lv2 t = t * 8 - ((⌊t⌋ * 8 : ℤ) : ℚ) := by
  unfold lv2 Int.fract
  push_cast
  ring

lemma floor_lv2 (t : ℚ) : ⌊lv2 t⌋ = ⌊t * 8⌋ - ⌊t⌋ * 8 := by
  rw [lv2_eq, Int.floor_sub_int]

lemma lv3_eq (t : ℚ) : lv3 t = t * 80 - ((⌊t * 8⌋ * 10 : ℤ) : ℚ) := by
  unfold lv3 Int.fract
  rw [floor_lv2, lv2_eq]
  push_cast
  ring

lemma floor_lv3 (t : ℚ) : ⌊lv3 t⌋ = ⌊t * 80⌋ - ⌊t * 8⌋ * 10 := by
  rw [lv3_eq, Int.floor_sub_int]

lemma lv4_eq (t : ℚ) : lv4 t = t * 160 - ((⌊t * 80⌋ * 2 : ℤ) : ℚ) := by
  unfold lv4 Int.fract
  rw [floor_lv3, lv3_eq]
  push_cast
  ring

lemma floor_lv4 (t : ℚ) : ⌊lv4 t⌋ = ⌊t * 160⌋ - ⌊t * 80⌋ * 2 := by
  rw [lv4_eq, Int.floor_sub_int]

lemma lv5_eq (t : ℚ) : lv5 t = t * 320 - ((⌊t * 160⌋ * 2 : ℤ) : ℚ) := by
  unfold lv5 Int.fract
  rw [floor_lv4, lv4_eq]
  push_cast
  ring

lemma floor_lv5 (t : ℚ) : ⌊lv5 t⌋ = ⌊t * 320⌋ - ⌊t * 160⌋ * 2 := by
  rw [lv5_eq, Int.floor_sub_int]

lemma lv6_eq (t : ℚ) : lv6 t = t * 640 - ((⌊t * 320⌋ * 2 : ℤ) : ℚ) := by
  unfold lv6 Int.fract
  rw [floor_lv5, lv5_eq]
  push_cast
  ring

lemma floor_lv6 (t : ℚ) : ⌊lv6 t⌋ = ⌊t * 640⌋ - ⌊t * 320⌋ * 2 := by
  rw [lv6_eq, Int.floor_sub_int]

lemma lv_mem (t : ℚ) (s : ℚ) (hs : 0 < s) :
    0 ≤ Int.fract t * s ∧ Int.fract t * s < s := by
  constructor
  · exact mul_nonneg (Int.fract_nonneg t) hs.le
  · calc Int.fract t * s < 1 * s :=
        mul_lt_mul_of_pos_right (Int.fract_lt_one t) hs
      _ = s := one_mul s

lemma fract_scale_floor_mem (t : ℚ) (s : ℤ) (hs : 0 < s) :
    0 ≤ ⌊Int.fract t * (s : ℚ)⌋ ∧ ⌊Int.fract t * (s : ℚ)⌋ < s := by
  have h := lv_mem t (s : ℚ) (by exact_mod_cast hs)
  exact ⟨Int.floor_nonneg.mpr h.1, Int.floor_lt.mpr h.2⟩

lemma d2_mem (t : ℚ) : 0 ≤ ⌊lv2 t⌋ ∧ ⌊lv2 t⌋ < 8 := by
  unfold lv2
  exact_mod_cast fract_scale_floor_mem t 8 (by norm_num)

lemma d3_mem (t : ℚ) : 0 ≤ ⌊lv3 t⌋ ∧ ⌊lv3 t⌋ < 10 := by
  unfold lv3
  exact_mod_cast fract_scale_floor_mem (lv2 t) 10 (by norm_num)

lemma d4_mem (t : ℚ) : 0 ≤ ⌊lv4 t⌋ ∧ ⌊lv4 t⌋ < 2 := by
  unfold lv4
  exact_mod_cast fract_scale_floor_mem (lv3 t) 2 (by norm_num)

lemma d5_mem (t : ℚ) : 0 ≤ ⌊lv5 t⌋ ∧ ⌊lv5 t⌋ < 2 := by
  unfold lv5
  exact_mod_cast fract_scale_floor_mem (lv4 t) 2 (by norm_num)

lemma d6_mem (t : ℚ) : 0 ≤ ⌊lv6 t⌋ ∧ ⌊lv6 t⌋ < 2 := by
  unfold lv6
  exact_mod_cast fract_scale_floor_mem (lv5 t) 2 (by norm_num)

lemma lv_nonneg (t : ℚ) (s : ℚ) (hs : 0 < s) : 0 ≤ Int.fract t * s :=
  (lv_mem t s hs).1

/-- The mesh code that `latlon_to_meshcode` produces on a valid-range input
at level `L ∈ {1,…,6}`, written as an explicit list of digit characters
(the digits are the floors of the fractional cascade `lv2 … lv6`). -/
def mcode (lat lon : ℚ) (L : ℕ) : List Char :=
  let x := lat * (3 / 2)
  let y := lon - 100
  [digitChar (⌊x⌋.toNat / 10), digitChar (⌊x⌋.toNat % 10),
   digitChar (⌊y⌋.toNat / 10), digitChar (⌊y⌋.toNat % 10)]
  ++ (if 2 ≤ L then [digitChar ⌊lv2 x⌋.toNat, digitChar ⌊lv2 y⌋.toNat] else [])
  ++ (if 3 ≤ L then [digitChar ⌊lv3 x⌋.toNat, digitChar ⌊lv3 y⌋.toNat] else [])
  ++ (if 4 ≤ L then [digitChar (⌊lv4 x⌋ * 2 + ⌊lv4 y⌋ + 1).toNat] else [])
  ++ (if 5 ≤ L then [digitChar (⌊lv5 x⌋ * 2 + ⌊lv5 y⌋ + 1).toNat] else [])
  ++ (if 6 ≤ L then [digitChar (⌊lv6 x⌋ * 2 + ⌊lv6 y⌋ + 1).toNat] else [])

lemma encodeLoop_zero (tLat tLon : ℚ) (mLat mLon : ℤ) :
    encodeLoop 0 tLat tLon mLat mLon = [] := rfl

lemma encodeLoop_succ (k : ℕ) (tLat tLon : ℚ) (mLat mLon : ℤ) :
    encodeLoop (k + 1) tLat tLon mLat mLon =
      intStr (truncInt ((tLat - (mLat : ℚ)) * 2) * 2 +
          truncInt ((tLon - (mLon : ℚ)) * 2) + 1) ++
        encodeLoop k ((tLat - (mLat : ℚ)) * 2) ((tLon - (mLon : ℚ)) * 2)
          (truncInt ((tLat - (mLat : ℚ)) * 2))
          (truncInt ((tLon - (mLon : ℚ)) * 2)) := rfl

lemma encode_eq_mcode (lat lon : ℚ) (h : ValidJapan lat lon) (L : ℕ)
    (h1 : 1 ≤ L) (h6 : L ≤ 6) :
    latlon_to_meshcode lat lon (L : ℤ) = mcode lat lon L := by
  obtain ⟨hx10, hx100, hlon1, hlon2⟩ := h
  have hx0 : (0:ℚ) ≤ lat * (3 / 2) := by linarith
  have hy0 : (0:ℚ) ≤ lon - 100 := by linarith
  have hy100 : lon - 100 < 100 := by linarith
  have hfx10 : 10 ≤ ⌊lat * (3 / 2)⌋ := Int.le_floor.mpr (by exact_mod_cast hx10)
  have hfx100 : ⌊lat * (3 / 2)⌋ < 100 := Int.floor_lt.mpr (by exact_mod_cast hx100)
  have hfy0 : 0 ≤ ⌊lon - 100⌋ := Int.floor_nonneg.mpr hy0
  have hfy100 : ⌊lon - 100⌋ < 100 := Int.floor_lt.mpr (by exact_mod_cast hy100)
  have h2x : (0:ℚ) ≤ Int.fract (lat * (3 / 2)) * 8 := lv_nonneg _ _ (by norm_num)
  have h2y : (0:ℚ) ≤ Int.fract (lon - 100) * 8 := lv_nonneg _ _ (by norm_num)
  have h3x : (0:ℚ) ≤ Int.fract (lv2 (lat * (3 / 2))) * 10 :=
    lv_nonneg _ _ (by norm_num)
  have h3y : (0:ℚ) ≤ Int.fract (lv2 (lon - 100)) * 10 :=
    lv_nonneg _ _ (by norm_num)
  have h4x : (0:ℚ) ≤ Int.fract (lv3 (lat * (3 / 2))) * 2 :=
    lv_nonneg _ _ (by norm_num)
  have h4y : (0:ℚ) ≤ Int.fract (lv3 (lon - 100)) * 2 :=
    lv_nonneg _ _ (by norm_num)
  have h5x : (0:ℚ) ≤ Int.fract (lv4 (lat * (3 / 2))) * 2 :=
    lv_nonneg _ _ (by norm_num)
  have h5y : (0:ℚ) ≤ Int.fract (lv4 (lon - 100)) * 2 :=
    lv_nonneg _ _ (by norm_num)
  have h6x : (0:ℚ) ≤ Int.fract (lv5 (lat * (3 / 2))) * 2 :=
    lv_nonneg _ _ (by norm_num)
  have h6y : (0:ℚ) ≤ Int.fract (lv5 (lon - 100)) * 2 :=
    lv_nonneg _ _ (by norm_num)
  have d2x := d2_mem (lat * (3 / 2))
  have d2y := d2_mem (lon - 100)
  have d3x := d3_mem (lat * (3 / 2))
  have d3y := d3_mem (lon - 100)
  have d4x := d4_mem (lat * (3 / 2))
  have d4y := d4_mem (lon - 100)
  have d5x := d5_mem (lat * (3 / 2))
  have d5y := d5_mem (lon - 100)
  have d6x := d6_mem (lat * (3 / 2))
  have d6y := d6_mem (lon - 100)
  simp only [lv2, lv3, lv4, lv5, lv6, Int.fract] at h2x h2y h3x h3y h4x h4y
  simp only [lv2, lv3, lv4, lv5, lv6, Int.fract] at h5x h5y h6x h6y
  simp only [lv2, lv3, lv4, lv5, lv6, Int.fract] at d2x d2y d3x d3y
  simp only [lv2, lv3, lv4, lv5, lv6, Int.fract] at d4x d4y d5x d5y d6x d6y
  interval_cases L
  · -- level 1
    simp only [latlon_to_meshcode, mcode, lv2, lv3, lv4, lv5, lv6, Int.fract]
    rw [if_pos (by decide : ((1:ℕ):ℤ) = 1)]
    rw [truncInt_of_nonneg _ hx0, truncInt_of_nonneg _ hy0]
    rw [intStr_of_nonneg _ (by omega), intStr_of_nonneg _ (by omega),
      natStr_two_digits _ (by omega) (by omega), zfill2_natStr _ (by omega)]
    simp
  · -- level 2
    simp only [latlon_to_meshcode, mcode, lv2, lv3, lv4, lv5, lv6, Int.fract]
    rw [if_neg (by decide : ¬ ((2:ℕ):ℤ) = 1), if_pos (by decide : ((2:ℕ):ℤ) = 2)]
    rw [truncInt_of_nonneg _ hx0, truncInt_of_nonneg _ hy0]
    rw [truncInt_of_nonneg _ h2x, truncInt_of_nonneg _ h2y]
    rw [intStr_of_nonneg _ (by omega), intStr_of_nonneg _ (by omega),
      natStr_two_digits _ (by omega) (by omega), zfill2_natStr _ (by omega)]
    rw [intStr_digit _ d2x.1 (by omega), intStr_digit _ d2y.1 (by omega)]
    simp
  · -- level 3
    simp only [latlon_to_meshcode, mcode, lv2, lv3, lv4, lv5, lv6, Int.fract]
    rw [if_neg (by decide : ¬ ((3:ℕ):ℤ) = 1),
      if_neg (by decide : ¬ ((3:ℕ):ℤ) = 2), if_pos (by decide : ((3:ℕ):ℤ) = 3)]
    rw [truncInt_of_nonneg _ hx0, truncInt_of_nonneg _ hy0]
    rw [truncInt_of_nonneg _ h2x, truncInt_of_nonneg _ h2y]
    rw [truncInt_of_nonneg _ h3x, truncInt_of_nonneg _ h3y]
    rw [intStr_of_nonneg _ (by omega), intStr_of_nonneg _ (by omega),
      natStr_two_digits _ (by omega) (by omega), zfill2_natStr _ (by omega)]
    rw [intStr_digit _ d2x.1 (by omega), intStr_digit _ d2y.1 (by omega)]
    rw [intStr_digit _ d3x.1 (by omega), intStr_digit _ d3y.1 (by omega)]
    simp
  · -- level 4
    simp only [latlon_to_meshcode, mcode, lv2, lv3, lv4, lv5, lv6, Int.fract]
    rw [if_neg (by decide : ¬ ((4:ℕ):ℤ) = 1),
      if_neg (by decide : ¬ ((4:ℕ):ℤ) = 2), if_neg (by decide : ¬ ((4:ℕ):ℤ) = 3)]
    rw [show (((4:ℕ):ℤ) - 3).toNat = 0 + 1 from by decide]
    rw [encodeLoop_succ, encodeLoop_zero]
    rw [truncInt_of_nonneg _ hx0, truncInt_of_nonneg _ hy0]
    rw [truncInt_of_nonneg _ h2x, truncInt_of_nonneg _ h2y]
    rw [truncInt_of_nonneg _ h3x, truncInt_of_nonneg _ h3y]
    rw [truncInt_of_nonneg _ h4x, truncInt_of_nonneg _ h4y]
    rw [intStr_of_nonneg _ (by omega), intStr_of_nonneg _ (by omega),
      natStr_two_digits _ (by omega) (by omega), zfill2_natStr _ (by omega)]
    rw [intStr_digit _ d2x.1 (by omega), intStr_digit _ d2y.1 (by omega)]
    rw [intStr_digit _ d3x.1 (by omega), intStr_digit _ d3y.1 (by omega)]
    rw [intStr_digit _ (by omega) (by omega :
      ⌊(((lat * (3/2) - ↑⌊lat * (3/2)⌋) * 8 -
          ↑⌊(lat * (3/2) - ↑⌊lat * (3/2)⌋) * 8⌋) * 10 -
          ↑⌊((lat * (3/2) - ↑⌊lat * (3/2)⌋) * 8 -
            ↑⌊(lat * (3/2) - ↑⌊lat * (3/2)⌋) * 8⌋) * 10⌋) * 2⌋ * 2 +
        ⌊(((lon - 100 - ↑⌊lon - 100⌋) * 8 -
          ↑⌊(lon - 100 - ↑⌊lon - 100⌋) * 8⌋) * 10 -
          ↑⌊((lon - 100 - ↑⌊lon - 100⌋) * 8 -
            ↑⌊(lon - 100 - ↑⌊lon - 100⌋) * 8⌋) * 10⌋) * 2⌋ + 1 < 10)]
    simp
  · -- level 5
    simp only [latlon_to_meshcode, mcode, lv2, lv3, lv4, lv5, lv6, Int.fract]
    rw [if_neg (by decide : ¬ ((5:ℕ):ℤ) = 1),
      if_neg (by decide : ¬ ((5:ℕ):ℤ) = 2), if_neg (by decide : ¬ ((5:ℕ):ℤ) = 3)]
    rw [show (((5:ℕ):ℤ) - 3).toNat = (0 + 1) + 1 from by decide]
    rw [encodeLoop_succ, encodeLoop_succ, encodeLoop_zero]
    rw [truncInt_of_nonneg _ hx0, truncInt_of_nonneg _ hy0]
    rw [truncInt_of_nonneg _ h2x, truncInt_of_nonneg _ h2y]
    rw [truncInt_of_nonneg _ h3x, truncInt_of_nonneg _ h3y]
    rw [truncInt_of_nonneg _ h4x, truncInt_of_nonneg _ h4y]
    rw [truncInt_of_nonneg _ h5x, truncInt_of_nonneg _ h5y]
    rw [intStr_of_nonneg _ (by omega), intStr_of_nonneg _ (by omega),
      natStr_two_digits _ (by omega) (by omega), zfill2_natStr _ (by omega)]
    rw [intStr_digit _ d2x.1 (by omega), intStr_digit _ d2y.1 (by omega)]
    rw [intStr_digit _ d3x.1 (by omega), intStr_digit _ d3y.1 (by omega)]
    rw [intStr_digit _ (by omega) (by omega), intStr_digit _ (by omega) (by omega)]
    simp
  · -- level 6
    simp only [latlon_to_meshcode, mcode, lv2, lv3, lv4, lv5, lv6, Int.fract]
    rw [if_neg (by decide : ¬ ((6:ℕ):ℤ) = 1),
      if_neg (by decide : ¬ ((6:ℕ):ℤ) = 2), if_neg (by decide : ¬ ((6:ℕ):ℤ) = 3)]
    rw [show (((6:ℕ):ℤ) - 3).toNat = ((0 + 1) + 1) + 1 from by decide]
    rw [encodeLoop_succ, encodeLoop_succ, encodeLoop_succ, encodeLoop_zero]
    rw [truncInt_of_nonneg _ hx0, truncInt_of_nonneg _ hy0]
    rw [truncInt_of_nonneg _ h2x, truncInt_of_nonneg _ h2y]
    rw [truncInt_of_nonneg _ h3x, truncInt_of_nonneg _ h3y]
    rw [truncInt_of_nonneg _ h4x, truncInt_of_nonneg _ h4y]
    rw [truncInt_of_nonneg _ h5x, truncInt_of_nonneg _ h5y]
    rw [truncInt_of_nonneg _ h6x, truncInt_of_nonneg _ h6y]
    rw [intStr_of_nonneg _ (by omega), intStr_of_nonneg _ (by omega),
      natStr_two_digits _ (by omega) (by omega), zfill2_natStr _ (by omega)]
    rw [intStr_digit _ d2x.1 (by omega), intStr_digit _ d2y.1 (by omega)]
    rw [intStr_digit _ d3x.1 (by omega), intStr_digit _ d3y.1 (by omega)]
    rw [intStr_digit _ (by omega) (by omega), intStr_digit _ (by omega) (by omega),
      intStr_digit _ (by omega) (by omega)]
    simp

lemma latOf_digits4 (a b c d : ℕ) (ha : a < 10) (hb : b < 10) :
    latOf [digitChar a, digitChar b, digitChar c, digitChar d] =
      ((10 * a + b : ℕ) : ℚ) * (2 / 3) := by
  unfold latOf
  simp [slice, charAt, parseNat, charDigit_digitChar a ha,
    charDigit_digitChar b hb]
  ring

lemma lonOf_digits4 (a b c d : ℕ) (hc : c < 10) (hd : d < 10) :
    lonOf [digitChar a, digitChar b, digitChar c, digitChar d] =
      ((10 * c + d : ℕ) : ℚ) + 100 := by
  unfold lonOf
  simp [slice, charAt, parseNat, charDigit_digitChar c hc,
    charDigit_digitChar d hd]
  ring

lemma latOf_digits6 (a b c d e f : ℕ) (ha : a < 10) (hb : b < 10)
    (he : e < 10) :
    latOf [digitChar a, digitChar b, digitChar c, digitChar d, digitChar e,
      digitChar f] =
      ((10 * a + b : ℕ) : ℚ) * (2 / 3) + (e : ℚ) * (2 / 3 / 8) := by
  unfold latOf
  simp [slice, charAt, parseNat, charDigit_digitChar a ha,
    charDigit_digitChar b hb, charDigit_digitChar e he]
  ring

lemma lonOf_digits6 (a b c d e f : ℕ) (hc : c < 10) (hd : d < 10)
    (hf : f < 10) :
    lonOf [digitChar a, digitChar b, digitChar c, digitChar d, digitChar e,
      digitChar f] =
      ((10 * c + d : ℕ) : ℚ) + 100 + (f : ℚ) * (1 / 8) := by
  unfold lonOf
  simp [slice, charAt, parseNat, charDigit_digitChar c hc,
    charDigit_digitChar d hd, charDigit_digitChar f hf]
  ring

lemma latOf_digits8 (a b c d e f g h' : ℕ) (ha : a < 10) (hb : b < 10)
    (he : e < 10) (hg : g < 10) :
    latOf [digitChar a, digitChar b, digitChar c, digitChar d, digitChar e,
      digitChar f, digitChar g, digitChar h'] =
      ((10 * a + b : ℕ) : ℚ) * (2 / 3) + (e : ℚ) * (2 / 3 / 8)
        + (g : ℚ) * (2 / 3 / 8 / 10) := by
  unfold latOf
  simp [slice, charAt, parseNat, charDigit_digitChar a ha,
    charDigit_digitChar b hb, charDigit_digitChar e he,
    charDigit_digitChar g hg]
  ring

lemma lonOf_digits8 (a b c d e f g h' : ℕ) (hc : c < 10) (hd : d < 10)
    (hf : f < 10) (hh : h' < 10) :
    lonOf [digitChar a, digitChar b, digitChar c, digitChar d, digitChar e,
      digitChar f, digitChar g, digitChar h'] =
      ((10 * c + d : ℕ) : ℚ) + 100 + (f : ℚ) * (1 / 8)
        + (h' : ℚ) * (1 / 8 / 10) := by
  unfold lonOf
  simp [slice, charAt, parseNat, charDigit_digitChar c hc,
    charDigit_digitChar d hd, charDigit_digitChar f hf,
    charDigit_digitChar h' hh]
  ring

lemma latOf_digits9 (a b c d e f g h' i : ℕ) (ha : a < 10) (hb : b < 10)
    (he : e < 10) (hg : g < 10) (hi : i < 10) :
    latOf [digitChar a, digitChar b, digitChar c, digitChar d, digitChar e,
      digitChar f, digitChar g, digitChar h', digitChar i] =
      ((10 * a + b : ℕ) : ℚ) * (2 / 3) + (e : ℚ) * (2 / 3 / 8)
        + (g : ℚ) * (2 / 3 / 8 / 10)
        + (if i = 3 ∨ i = 4 then 2 / 3 / 8 / 10 / 2 else 0) := by
  unfold latOf
  simp [slice, charAt, parseNat, charDigit_digitChar a ha,
    charDigit_digitChar b hb, charDigit_digitChar e he,
    charDigit_digitChar g hg, charDigit_digitChar i hi]
  ring

lemma lonOf_digits9 (a b c d e f g h' i : ℕ) (hc : c < 10) (hd : d < 10)
    (hf : f < 10) (hh : h' < 10) (hi : i < 10) :
    lonOf [digitChar a, digitChar b, digitChar c, digitChar d, digitChar e,
      digitChar f, digitChar g, digitChar h', digitChar i] =
      ((10 * c + d : ℕ) : ℚ) + 100 + (f : ℚ) * (1 / 8)
        + (h' : ℚ) * (1 / 8 / 10)
        + (if i = 2 ∨ i = 4 then 1 / 8 / 10 / 2 else 0) := by
  unfold lonOf
  simp [slice, charAt, parseNat, charDigit_digitChar c hc,
    charDigit_digitChar d hd, charDigit_digitChar f hf,
    charDigit_digitChar h' hh, charDigit_digitChar i hi]
  ring

lemma latOf_digits10 (a b c d e f g h' i j : ℕ) (ha : a < 10) (hb : b < 10)
    (he : e < 10) (hg : g < 10) (hi : i < 10) (hj : j < 10) :
    latOf [digitChar a, digitChar b, digitChar c, digitChar d, digitChar e,
      digitChar f, digitChar g, digitChar h', digitChar i, digitChar j] =
      ((10 * a + b : ℕ) : ℚ) * (2 / 3) + (e : ℚ) * (2 / 3 / 8)
        + (g : ℚ) * (2 / 3 / 8 / 10)
        + (if i = 3 ∨ i = 4 then 2 / 3 / 8 / 10 / 2 else 0)
        + (if j = 3 ∨ j = 4 then 2 / 3 / 8 / 10 / 2 ^ 2 else 0) := by
  unfold latOf
  simp [slice, charAt, parseNat, charDigit_digitChar a ha,
    charDigit_digitChar b hb, charDigit_digitChar e he,
    charDigit_digitChar g hg, charDigit_digitChar i hi,
    charDigit_digitChar j hj, Finset.sum_range_succ]
  ring

lemma lonOf_digits10 (a b c d e f g h' i j : ℕ) (hc : c < 10) (hd : d < 10)
    (hf : f < 10) (hh : h' < 10) (hi : i < 10) (hj : j < 10) :
    lonOf [digitChar a, digitChar b, digitChar c, digitChar d, digitChar e,
      digitChar f, digitChar g, digitChar h', digitChar i, digitChar j] =
      ((10 * c + d : ℕ) : ℚ) + 100 + (f : ℚ) * (1 / 8)
        + (h' : ℚ) * (1 / 8 / 10)
        + (if i = 2 ∨ i = 4 then 1 / 8 / 10 / 2 else 0)
        + (if j = 2 ∨ j = 4 then 1 / 8 / 10 / 2 ^ 2 else 0) := by
  unfold lonOf
  simp [slice, charAt, parseNat, charDigit_digitChar c hc,
    charDigit_digitChar d hd, charDigit_digitChar f hf,
    charDigit_digitChar h' hh, charDigit_digitChar i hi,
    charDigit_digitChar j hj, Finset.sum_range_succ]
  ring

lemma latOf_digits11 (a b c d e f g h' i j k : ℕ) (ha : a < 10) (hb : b < 10)
    (he : e < 10) (hg : g < 10) (hi : i < 10) (hj : j < 10) (hk : k < 10) :
    latOf [digitChar a, digitChar b, digitChar c, digitChar d, digitChar e,
      digitChar f, digitChar g, digitChar h', digitChar i, digitChar j,
      digitChar k] =
      ((10 * a + b : ℕ) : ℚ) * (2 / 3) + (e : ℚ) * (2 / 3 / 8)
        + (g : ℚ) * (2 / 3 / 8 / 10)
        + (if i = 3 ∨ i = 4 then 2 / 3 / 8 / 10 / 2 else 0)
        + (if j = 3 ∨ j = 4 then 2 / 3 / 8 / 10 / 2 ^ 2 else 0)
        + (if k = 3 ∨ k = 4 then 2 / 3 / 8 / 10 / 2 ^ 3 else 0) := by
  unfold latOf
  simp [slice, charAt, parseNat, charDigit_digitChar a ha,
    charDigit_digitChar b hb, charDigit_digitChar e he,
    charDigit_digitChar g hg, charDigit_digitChar i hi,
    charDigit_digitChar j hj, charDigit_digitChar k hk, Finset.sum_range_succ]
  ring

lemma lonOf_digits11 (a b c d e f g h' i j k : ℕ) (hc : c < 10) (hd : d < 10)
    (hf : f < 10) (hh : h' < 10) (hi : i < 10) (hj : j < 10) (hk : k < 10) :
    lonOf [digitChar a, digitChar b, digitChar c, digitChar d, digitChar e,
      digitChar f, digitChar g, digitChar h', digitChar i, digitChar j,
      digitChar k] =
      ((10 * c + d : ℕ) : ℚ) + 100 + (f : ℚ) * (1 / 8)
        + (h' : ℚ) * (1 / 8 / 10)
        + (if i = 2 ∨ i = 4 then 1 / 8 / 10 / 2 else 0)
        + (if j = 2 ∨ j = 4 then 1 / 8 / 10 / 2 ^ 2 else 0)
        + (if k = 2 ∨ k = 4 then 1 / 8 / 10 / 2 ^ 3 else 0) := by
  unfold lonOf
  simp [slice, charAt, parseNat, charDigit_digitChar c hc,
    charDigit_digitChar d hd, charDigit_digitChar f hf,
    charDigit_digitChar h' hh, charDigit_digitChar i hi,
    charDigit_digitChar j hj, charDigit_digitChar k hk, Finset.sum_range_succ]
  ring

lemma cast_toNat_q (n : ℤ) (h : 0 ≤ n) : ((n.toNat : ℕ) : ℚ) = (n : ℚ) := by
  exact_mod_cast Int.toNat_of_nonneg h

lemma quad_lat_ite (u v : ℤ) (hu0 : 0 ≤ u) (hu2 : u < 2) (hv0 : 0 ≤ v)
    (hv2 : v < 2) (δ : ℚ) :
    (if (u * 2 + v + 1).toNat = 3 ∨ (u * 2 + v + 1).toNat = 4
     then δ else 0) = (u : ℚ) * δ := by
  interval_cases u <;> interval_cases v <;> simp

lemma quad_lon_ite (u v : ℤ) (hu0 : 0 ≤ u) (hu2 : u < 2) (hv0 : 0 ≤ v)
    (hv2 : v < 2) (δ : ℚ) :
    (if (u * 2 + v + 1).toNat = 2 ∨ (u * 2 + v + 1).toNat = 4
     then δ else 0) = (v : ℚ) * δ := by
  interval_cases u <;> interval_cases v <;> simp

/-- The length of a full mesh code at level `L ∈ {1,…,6}`. -/
def fullLen : ℕ → ℕ
  | 1 => 4
  | 2 => 6
  | 3 => 8
  | 4 => 9
  | 5 => 10
  | 6 => 11
  | _ => 0

lemma mcode_eval (lat lon : ℚ) (h : ValidJapan lat lon) (L : ℕ)
    (h1 : 1 ≤ L) (h6 : L ≤ 6) :
    latOf (mcode lat lon L) = latStep L * ⌊lat / latStep L⌋ ∧
    lonOf (mcode lat lon L) = lonStep L * ⌊lon / lonStep L⌋ ∧
    (mcode lat lon L).length = fullLen L := by
  obtain ⟨hx10, hx100, hlon1, hlon2⟩ := h
  have hx0 : (0:ℚ) ≤ lat * (3 / 2) := by linarith
  have hy0 : (0:ℚ) ≤ lon - 100 := by linarith
  have hy100 : lon - 100 < 100 := by linarith
  have hfx10 : 10 ≤ ⌊lat * (3 / 2)⌋ := Int.le_floor.mpr (by exact_mod_cast hx10)
  have hfx100 : ⌊lat * (3 / 2)⌋ < 100 := Int.floor_lt.mpr (by exact_mod_cast hx100)
  have hfy0 : 0 ≤ ⌊lon - 100⌋ := Int.floor_nonneg.mpr hy0
  have hfy100 : ⌊lon - 100⌋ < 100 := Int.floor_lt.mpr (by exact_mod_cast hy100)
  have d2x := d2_mem (lat * (3 / 2))
  have d2y := d2_mem (lon - 100)
  have d3x := d3_mem (lat * (3 / 2))
  have d3y := d3_mem (lon - 100)
  have d4x := d4_mem (lat * (3 / 2))
  have d4y := d4_mem (lon - 100)
  have d5x := d5_mem (lat * (3 / 2))
  have d5y := d5_mem (lon - 100)
  have d6x := d6_mem (lat * (3 / 2))
  have d6y := d6_mem (lon - 100)
  interval_cases L
  · -- level 1
    simp only [mcode, fullLen]
    rw [if_neg (by norm_num), if_neg (by norm_num), if_neg (by norm_num),
      if_neg (by norm_num), if_neg (by norm_num)]
    simp only [List.append_nil]
    refine ⟨?_, ?_, by simp⟩
    · rw [latOf_digits4 _ _ _ _ (by omega) (by omega), Nat.div_add_mod,
        cast_toNat_q _ (by omega)]
      rw [show (latStep 1 : ℚ) = 2 / 3 from by norm_num [latStep]]
      rw [show lat / (2 / 3 : ℚ) = lat * (3 / 2) from by ring]
      ring
    · rw [lonOf_digits4 _ _ _ _ (by omega) (by omega), Nat.div_add_mod,
        cast_toNat_q _ (by omega)]
      rw [show (lonStep 1 : ℚ) = 1 from by norm_num [lonStep]]
      rw [show lon / (1 : ℚ) = (lon - 100) + ((100:ℤ):ℚ) from by push_cast; ring]
      rw [Int.floor_add_int]
      push_cast
      ring
  · -- level 2
    simp only [mcode, fullLen]
    rw [if_pos (by norm_num), if_neg (by norm_num), if_neg (by norm_num),
      if_neg (by norm_num), if_neg (by norm_num)]
    simp only [List.cons_append, List.nil_append, List.append_nil]
    refine ⟨?_, ?_, by simp⟩
    · rw [latOf_digits6 _ _ _ _ _ _ (by omega) (by omega) (by omega),
        Nat.div_add_mod, cast_toNat_q _ (by omega), cast_toNat_q _ d2x.1]
      rw [floor_lv2]
      rw [show (latStep 2 : ℚ) = 2 / 3 / 8 from by norm_num [latStep]]
      rw [show lat / (2 / 3 / 8 : ℚ) = lat * (3 / 2) * 8 from by ring]
      push_cast
      ring
    · rw [lonOf_digits6 _ _ _ _ _ _ (by omega) (by omega) (by omega),
        Nat.div_add_mod, cast_toNat_q _ (by omega), cast_toNat_q _ d2y.1]
      rw [floor_lv2]
      rw [show (lonStep 2 : ℚ) = 1 / 8 from by norm_num [lonStep]]
      rw [show lon / (1 / 8 : ℚ) = (lon - 100) * 8 + ((800:ℤ):ℚ) from by
        push_cast; ring]
      rw [Int.floor_add_int]
      push_cast
      ring
  · -- level 3
    simp only [mcode, fullLen]
    rw [if_pos (by norm_num), if_pos (by norm_num), if_neg (by norm_num),
      if_neg (by norm_num), if_neg (by norm_num)]
    simp only [List.cons_append, List.nil_append, List.append_nil]
    refine ⟨?_, ?_, by simp⟩
    · rw [latOf_digits8 _ _ _ _ _ _ _ _ (by omega) (by omega) (by omega)
        (by omega),
        Nat.div_add_mod, cast_toNat_q _ (by omega), cast_toNat_q _ d2x.1,
        cast_toNat_q _ d3x.1]
      rw [floor_lv2, floor_lv3]
      rw [show (latStep 3 : ℚ) = 2 / 3 / 80 from by norm_num [latStep]]
      rw [show lat / (2 / 3 / 80 : ℚ) = lat * (3 / 2) * 80 from by ring]
      push_cast
      ring
    · rw [lonOf_digits8 _ _ _ _ _ _ _ _ (by omega) (by omega) (by omega)
        (by omega),
        Nat.div_add_mod, cast_toNat_q _ (by omega), cast_toNat_q _ d2y.1,
        cast_toNat_q _ d3y.1]
      rw [floor_lv2, floor_lv3]
      rw [show (lonStep 3 : ℚ) = 1 / 80 from by norm_num [lonStep]]
      rw [show lon / (1 / 80 : ℚ) = (lon - 100) * 80 + ((8000:ℤ):ℚ) from by
        push_cast; ring]
      rw [Int.floor_add_int]
      push_cast
      ring
  · -- level 4
    simp only [mcode, fullLen]
    rw [if_pos (by norm_num), if_pos (by norm_num), if_pos (by norm_num),
      if_neg (by norm_num), if_neg (by norm_num)]
    simp only [List.cons_append, List.nil_append, List.append_nil]
    refine ⟨?_, ?_, by simp⟩
    · rw [latOf_digits9 _ _ _ _ _ _ _ _ _ (by omega) (by omega) (by omega)
        (by omega) (by omega),
        Nat.div_add_mod, cast_toNat_q _ (by omega), cast_toNat_q _ d2x.1,
        cast_toNat_q _ d3x.1]
      rw [quad_lat_ite _ _ d4x.1 d4x.2 d4y.1 d4y.2]
      rw [floor_lv2, floor_lv3, floor_lv4]
      rw [show (latStep 4 : ℚ) = 2 / 3 / 160 from by norm_num [latStep]]
      rw [show lat / (2 / 3 / 160 : ℚ) = lat * (3 / 2) * 160 from by ring]
      push_cast
      ring
    · rw [lonOf_digits9 _ _ _ _ _ _ _ _ _ (by omega) (by omega) (by omega)
        (by omega) (by omega),
        Nat.div_add_mod, cast_toNat_q _ (by omega), cast_toNat_q _ d2y.1,
        cast_toNat_q _ d3y.1]
      rw [quad_lon_ite _ _ d4x.1 d4x.2 d4y.1 d4y.2]
      rw [floor_lv2, floor_lv3, floor_lv4]
      rw [show (lonStep 4 : ℚ) = 1 / 160 from by norm_num [lonStep]]
      rw [show lon / (1 / 160 : ℚ) = (lon - 100) * 160 + ((16000:ℤ):ℚ) from by
        push_cast; ring]
      rw [Int.floor_add_int]
      push_cast
      ring
  · -- level 5
    simp only [mcode, fullLen]
    rw [if_pos (by norm_num), if_pos (by norm_num), if_pos (by norm_num),
      if_pos (by norm_num), if_neg (by norm_num)]
    simp only [List.cons_append, List.nil_append, List.append_nil]
    refine ⟨?_, ?_, by simp⟩
    · rw [latOf_digits10 _ _ _ _ _ _ _ _ _ _ (by omega) (by omega) (by omega)
        (by omega) (by omega) (by omega),
        Nat.div_add_mod, cast_toNat_q _ (by omega), cast_toNat_q _ d2x.1,
        cast_toNat_q _ d3x.1]
      rw [quad_lat_ite _ _ d4x.1 d4x.2 d4y.1 d4y.2,
        quad_lat_ite _ _ d5x.1 d5x.2 d5y.1 d5y.2]
      rw [floor_lv2, floor_lv3, floor_lv4, floor_lv5]
      rw [show (latStep 5 : ℚ) = 2 / 3 / 320 from by norm_num [latStep]]
      rw [show lat / (2 / 3 / 320 : ℚ) = lat * (3 / 2) * 320 from by ring]
      push_cast
      ring
    · rw [lonOf_digits10 _ _ _ _ _ _ _ _ _ _ (by omega) (by omega) (by omega)
        (by omega) (by omega) (by omega),
        Nat.div_add_mod, cast_toNat_q _ (by omega), cast_toNat_q _ d2y.1,
        cast_toNat_q _ d3y.1]
      rw [quad_lon_ite _ _ d4x.1 d4x.2 d4y.1 d4y.2,
        quad_lon_ite _ _ d5x.1 d5x.2 d5y.1 d5y.2]
      rw [floor_lv2, floor_lv3, floor_lv4, floor_lv5]
      rw [show (lonStep 5 : ℚ) = 1 / 320 from by norm_num [lonStep]]
      rw [show lon / (1 / 320 : ℚ) = (lon - 100) * 320 + ((32000:ℤ):ℚ) from by
        push_cast; ring]
      rw [Int.floor_add_int]
      push_cast
      ring
  · -- level 6
    simp only [mcode, fullLen]
    rw [if_pos (by norm_num), if_pos (by norm_num), if_pos (by norm_num),
      if_pos (by norm_num), if_pos (by norm_num)]
    simp only [List.cons_append, List.nil_append, List.append_nil]
    refine ⟨?_, ?_, by simp⟩
    · rw [latOf_digits11 _ _ _ _ _ _ _ _ _ _ _ (by omega) (by omega)
        (by omega) (by omega) (by omega) (by omega) (by omega),
        Nat.div_add_mod, cast_toNat_q _ (by omega), cast_toNat_q _ d2x.1,
        cast_toNat_q _ d3x.1]
      rw [quad_lat_ite _ _ d4x.1 d4x.2 d4y.1 d4y.2,
        quad_lat_ite _ _ d5x.1 d5x.2 d5y.1 d5y.2,
        quad_lat_ite _ _ d6x.1 d6x.2 d6y.1 d6y.2]
      rw [floor_lv2, floor_lv3, floor_lv4, floor_lv5, floor_lv6]
      rw [show (latStep 6 : ℚ) = 2 / 3 / 640 from by norm_num [latStep]]
      rw [show lat / (2 / 3 / 640 : ℚ) = lat * (3 / 2) * 640 from by ring]
      push_cast
      ring
    · rw [lonOf_digits11 _ _ _ _ _ _ _ _ _ _ _ (by omega) (by omega)
        (by omega) (by omega) (by omega) (by omega) (by omega),
        Nat.div_add_mod, cast_toNat_q _ (by omega), cast_toNat_q _ d2y.1,
        cast_toNat_q _ d3y.1]
      rw [quad_lon_ite _ _ d4x.1 d4x.2 d4y.1 d4y.2,
        quad_lon_ite _ _ d5x.1 d5x.2 d5y.1 d5y.2,
        quad_lon_ite _ _ d6x.1 d6x.2 d6y.1 d6y.2]
      rw [floor_lv2, floor_lv3, floor_lv4, floor_lv5, floor_lv6]
      rw [show (lonStep 6 : ℚ) = 1 / 640 from by norm_num [lonStep]]
      rw [show lon / (1 / 640 : ℚ) = (lon - 100) * 640 + ((64000:ℤ):ℚ) from by
        push_cast; ring]
      rw [Int.floor_add_int]
      push_cast
      ring

lemma roundtrip_eval (lat lon : ℚ) (h : ValidJapan lat lon) (L : ℕ)
    (h1 : 1 ≤ L) (h6 : L ≤ 6) :
    latOf (latlon_to_meshcode lat lon (L : ℤ)) = latStep L * ⌊lat / latStep L⌋ ∧
    lonOf (latlon_to_meshcode lat lon (L : ℤ)) = lonStep L * ⌊lon / lonStep L⌋ ∧
    latDeltaOf (latlon_to_meshcode lat lon (L : ℤ)).length = latStep L ∧
    lonDeltaOf (latlon_to_meshcode lat lon (L : ℤ)).length = lonStep L := by
  rw [encode_eq_mcode lat lon h L h1 h6]
  obtain ⟨he1, he2, he3⟩ := mcode_eval lat lon h L h1 h6
  refine ⟨he1, he2, ?_, ?_⟩ <;> rw [he3] <;> interval_cases L <;>
    norm_num [fullLen, latDeltaOf, lonDeltaOf, latStep, lonStep]

lemma cell_bounds (v s : ℚ) (hs : 0 < s) :
    s * ⌊v / s⌋ ≤ v ∧ v < s * ⌊v / s⌋ + s := by
  constructor
  · have hf : (⌊v / s⌋ : ℚ) ≤ v / s := Int.floor_le (v / s)
    calc s * ⌊v / s⌋ ≤ s * (v / s) :=
        mul_le_mul_of_nonneg_left hf hs.le
      _ = v := by field_simp
  · have hf : v / s < ⌊v / s⌋ + 1 := Int.lt_floor_add_one (v / s)
    have := mul_lt_mul_of_pos_left hf hs
    calc v = s * (v / s) := by field_simp
      _ < s * ((⌊v / s⌋ : ℚ) + 1) := this
      _ = s * ⌊v / s⌋ + s := by ring

lemma floor_scale_le (v s : ℚ) (m : ℕ) (hs : 0 < s) (hm : 1 ≤ m) :
    (s * m) * ⌊v / (s * m)⌋ ≤ s * ⌊v / s⌋ := by
  have hm0 : (0:ℚ) < m := by exact_mod_cast hm
  have h1 : ((m : ℤ) * ⌊v / (s * m)⌋ : ℤ) ≤ ⌊v / s⌋ := by
    rw [Int.le_floor]
    push_cast
    have h2 : (⌊v / (s * m)⌋ : ℚ) ≤ v / (s * m) := Int.floor_le _
    calc (m : ℚ) * ⌊v / (s * m)⌋ ≤ m * (v / (s * m)) :=
        mul_le_mul_of_nonneg_left h2 hm0.le
      _ = v / s := by field_simp; ring
  calc (s * m) * ⌊v / (s * m)⌋ = s * ((m : ℚ) * ⌊v / (s * m)⌋) := by ring
    _ ≤ s * ⌊v / s⌋ := by
        refine mul_le_mul_of_nonneg_left ?_ hs.le
        exact_mod_cast h1

lemma floor_scale_add_le (v s : ℚ) (m : ℕ) (hs : 0 < s) (hm : 1 ≤ m) :
    s * ⌊v / s⌋ + s ≤ (s * m) * ⌊v / (s * m)⌋ + s * m := by
  have hm0 : (0:ℚ) < m := by exact_mod_cast hm
  have key : ⌊v / s⌋ + 1 ≤ (m : ℤ) * (⌊v / (s * m)⌋ + 1) := by
    have h2 : v / (s * m) < ⌊v / (s * m)⌋ + 1 := Int.lt_floor_add_one _
    have h3 : v / s < (m : ℚ) * ((⌊v / (s * m)⌋ : ℚ) + 1) := by
      have hv : v / s = m * (v / (s * m)) := by field_simp; ring
      rw [hv]
      exact mul_lt_mul_of_pos_left h2 hm0
    have h4 : ⌊v / s⌋ < (m : ℤ) * (⌊v / (s * m)⌋ + 1) := by
      rw [Int.floor_lt]
      push_cast
      exact h3
    omega
  calc s * ⌊v / s⌋ + s = s * ((⌊v / s⌋ : ℚ) + 1) := by ring
    _ ≤ s * ((m : ℚ) * ((⌊v / (s * m)⌋ : ℚ) + 1)) := by
        refine mul_le_mul_of_nonneg_left ?_ hs.le
        exact_mod_cast key
    _ = (s * m) * ⌊v / (s * m)⌋ + s * m := by ring

/-- Claim C1: for every `(lat, lon)` inside the valid Japan mesh range and
every level in `{1,…,6}`, `decode(encode(lat, lon, level), "sw")` returns
exactly the south-west corner of the unique level-`level` cell containing
`(lat, lon)` (the grid cell `[s⌊lat/s⌋, s⌊lat/s⌋ + s) × [t⌊lon/t⌋,
t⌊lon/t⌋ + t)`, whose containment of `(lat, lon)` is part of the
statement), and `decode` of the same code in `"bbox"` mode yields the
bounding box of that cell, which contains `(lat, lon)` inclusively on its
south-west edges and exclusively on its north-east edges. -/
theorem C1_roundtrip (lat lon : ℚ) (h : ValidJapan lat lon) (L : ℕ)
    (h1 : 1 ≤ L) (h6 : L ≤ 6) :
    meshcode_to_latlon (latlon_to_meshcode lat lon (L : ℤ)) "sw" =
      Except.ok (CoordRec.point (latStep L * ⌊lat / latStep L⌋)
        (lonStep L * ⌊lon / lonStep L⌋)) ∧
    (latStep L * ⌊lat / latStep L⌋ ≤ lat ∧
      lat < latStep L * ⌊lat / latStep L⌋ + latStep L) ∧
    (lonStep L * ⌊lon / lonStep L⌋ ≤ lon ∧
      lon < lonStep L * ⌊lon / lonStep L⌋ + lonStep L) ∧
    meshcode_to_latlon (latlon_to_meshcode lat lon (L : ℤ)) "bbox" =
      Except.ok (CoordRec.box (latStep L * ⌊lat / latStep L⌋)
        (lonStep L * ⌊lon / lonStep L⌋)
        (latStep L * ⌊lat / latStep L⌋ + latStep L)
        (lonStep L * ⌊lon / lonStep L⌋ + lonStep L)) := by
  obtain ⟨he1, he2, he3, he4⟩ := roundtrip_eval lat lon h L h1 h6
  have hslat : (0:ℚ) < latStep L := by
    interval_cases L <;> norm_num [latStep]
  have hslon : (0:ℚ) < lonStep L := by
    interval_cases L <;> norm_num [lonStep]
  refine ⟨?_, cell_bounds lat (latStep L) hslat,
    cell_bounds lon (lonStep L) hslon, ?_⟩
  · rw [decode_sw, he1, he2]
  · rw [decode_bbox, he1, he2, he3, he4]

/-- Witness for C1 at the Tokyo-station coordinates and level 3. -/
theorem C1_roundtrip_witness :
    meshcode_to_latlon
        (latlon_to_meshcode (356813489 / 10000000) (139766029 / 1000000) 3)
        "sw" =
      Except.ok (CoordRec.point
        (latStep 3 * ⌊(356813489 / 10000000 : ℚ) / latStep 3⌋)
        (lonStep 3 * ⌊(139766029 / 1000000 : ℚ) / lonStep 3⌋)) :=
  (C1_roundtrip (356813489 / 10000000) (139766029 / 1000000)
    (by norm_num [ValidJapan]) 3 (by norm_num) (by norm_num)).1

/-- Claim C3: for every `(lat, lon)` inside the valid Japan mesh range and
every `k ∈ {1,…,5}`, the bbox of `encode(lat, lon, k+1)` is strictly
contained in the bbox of `encode(lat, lon, k)`: the inner south-west corner
is at or after the outer one, the inner north-east corner is at or before
the outer one, and the inner dimensions are strictly smaller in both axes
(so the containment is strict). -/
theorem C3_monotone_refinement (lat lon : ℚ) (h : ValidJapan lat lon)
    (k : ℕ) (h1 : 1 ≤ k) (h5 : k ≤ 5) :
    ∃ A B A2 B2 : ℚ,
      meshcode_to_latlon (latlon_to_meshcode lat lon (k : ℤ)) "bbox" =
        Except.ok (CoordRec.box A B (A + latStep k) (B + lonStep k)) ∧
      meshcode_to_latlon (latlon_to_meshcode lat lon ((k + 1 : ℕ) : ℤ)) "bbox" =
        Except.ok (CoordRec.box A2 B2 (A2 + latStep (k + 1))
          (B2 + lonStep (k + 1))) ∧
      A ≤ A2 ∧ A2 + latStep (k + 1) ≤ A + latStep k ∧
      B ≤ B2 ∧ B2 + lonStep (k + 1) ≤ B + lonStep k ∧
      latStep (k + 1) < latStep k ∧ lonStep (k + 1) < lonStep k := by
  obtain ⟨he1, he2, he3, he4⟩ := roundtrip_eval lat lon h k h1 (by omega)
  obtain ⟨hf1, hf2, hf3, hf4⟩ :=
    roundtrip_eval lat lon h (k + 1) (by omega) (by omega)
  refine ⟨latStep k * ⌊lat / latStep k⌋, lonStep k * ⌊lon / lonStep k⌋,
    latStep (k + 1) * ⌊lat / latStep (k + 1)⌋,
    lonStep (k + 1) * ⌊lon / lonStep (k + 1)⌋, ?_, ?_, ?_, ?_, ?_, ?_, ?_, ?_⟩
  · rw [decode_bbox, he1, he2, he3, he4]
  · rw [decode_bbox, hf1, hf2, hf3, hf4]
  · -- latitude: outer sw ≤ inner sw
    interval_cases k
    · have := floor_scale_le lat (latStep 2) 8 (by norm_num [latStep]) (by norm_num)
      calc latStep 1 * ⌊lat / latStep 1⌋
          = (latStep 2 * 8) * ⌊lat / (latStep 2 * 8)⌋ := by norm_num [latStep]
        _ ≤ latStep 2 * ⌊lat / latStep 2⌋ := this
    · have := floor_scale_le lat (latStep 3) 10 (by norm_num [latStep]) (by norm_num)
      calc latStep 2 * ⌊lat / latStep 2⌋
          = (latStep 3 * 10) * ⌊lat / (latStep 3 * 10)⌋ := by norm_num [latStep]
        _ ≤ latStep 3 * ⌊lat / latStep 3⌋ := this
    · have := floor_scale_le lat (latStep 4) 2 (by norm_num [latStep]) (by norm_num)
      calc latStep 3 * ⌊lat / latStep 3⌋
          = (latStep 4 * 2) * ⌊lat / (latStep 4 * 2)⌋ := by norm_num [latStep]
        _ ≤ latStep 4 * ⌊lat / latStep 4⌋ := this
    · have := floor_scale_le lat (latStep 5) 2 (by norm_num [latStep]) (by norm_num)
      calc latStep 4 * ⌊lat / latStep 4⌋
          = (latStep 5 * 2) * ⌊lat / (latStep 5 * 2)⌋ := by norm_num [latStep]
        _ ≤ latStep 5 * ⌊lat / latStep 5⌋ := this
    · have := floor_scale_le lat (latStep 6) 2 (by norm_num [latStep]) (by norm_num)
      calc latStep 5 * ⌊lat / latStep 5⌋
          = (latStep 6 * 2) * ⌊lat / (latStep 6 * 2)⌋ := by norm_num [latStep]
        _ ≤ latStep 6 * ⌊lat / latStep 6⌋ := this
  · -- latitude: inner ne ≤ outer ne
    interval_cases k
    · have := floor_scale_add_le lat (latStep 2) 8 (by norm_num [latStep]) (by norm_num)
      calc latStep 2 * ⌊lat / latStep 2⌋ + latStep 2
          ≤ (latStep 2 * 8) * ⌊lat / (latStep 2 * 8)⌋ + latStep 2 * 8 := this
        _ = latStep 1 * ⌊lat / latStep 1⌋ + latStep 1 := by norm_num [latStep]
    · have := floor_scale_add_le lat (latStep 3) 10 (by norm_num [latStep]) (by norm_num)
      calc latStep 3 * ⌊lat / latStep 3⌋ + latStep 3
          ≤ (latStep 3 * 10) * ⌊lat / (latStep 3 * 10)⌋ + latStep 3 * 10 := this
        _ = latStep 2 * ⌊lat / latStep 2⌋ + latStep 2 := by norm_num [latStep]
    · have := floor_scale_add_le lat (latStep 4) 2 (by norm_num [latStep]) (by norm_num)
      calc latStep 4 * ⌊lat / latStep 4⌋ + latStep 4
          ≤ (latStep 4 * 2) * ⌊lat / (latStep 4 * 2)⌋ + latStep 4 * 2 := this
        _ = latStep 3 * ⌊lat / latStep 3⌋ + latStep 3 := by norm_num [latStep]
    · have := floor_scale_add_le lat (latStep 5) 2 (by norm_num [latStep]) (by norm_num)
      calc latStep 5 * ⌊lat / latStep 5⌋ + latStep 5
          ≤ (latStep 5 * 2) * ⌊lat / (latStep 5 * 2)⌋ + latStep 5 * 2 := this
        _ = latStep 4 * ⌊lat / latStep 4⌋ + latStep 4 := by norm_num [latStep]
    · have := floor_scale_add_le lat (latStep 6) 2 (by norm_num [latStep]) (by norm_num)
      calc latStep 6 * ⌊lat / latStep 6⌋ + latStep 6
          ≤ (latStep 6 * 2) * ⌊lat / (latStep 6 * 2)⌋ + latStep 6 * 2 := this
        _ = latStep 5 * ⌊lat / latStep 5⌋ + latStep 5 := by norm_num [latStep]
  · -- longitude: outer sw ≤ inner sw
    interval_cases k
    · have := floor_scale_le lon (lonStep 2) 8 (by norm_num [lonStep]) (by norm_num)
      calc lonStep 1 * ⌊lon / lonStep 1⌋
          = (lonStep 2 * 8) * ⌊lon / (lonStep 2 * 8)⌋ := by norm_num [lonStep]
        _ ≤ lonStep 2 * ⌊lon / lonStep 2⌋ := this
    · have := floor_scale_le lon (lonStep 3) 10 (by norm_num [lonStep]) (by norm_num)
      calc lonStep 2 * ⌊lon / lonStep 2⌋
          = (lonStep 3 * 10) * ⌊lon / (lonStep 3 * 10)⌋ := by norm_num [lonStep]
        _ ≤ lonStep 3 * ⌊lon / lonStep 3⌋ := this
    · have := floor_scale_le lon (lonStep 4) 2 (by norm_num [lonStep]) (by norm_num)
      calc lonStep 3 * ⌊lon / lonStep 3⌋
          = (lonStep 4 * 2) * ⌊lon / (lonStep 4 * 2)⌋ := by norm_num [lonStep]
        _ ≤ lonStep 4 * ⌊lon / lonStep 4⌋ := this
    · have := floor_scale_le lon (lonStep 5) 2 (by norm_num [lonStep]) (by norm_num)
      calc lonStep 4 * ⌊lon / lonStep 4⌋
          = (lonStep 5 * 2) * ⌊lon / (lonStep 5 * 2)⌋ := by norm_num [lonStep]
        _ ≤ lonStep 5 * ⌊lon / lonStep 5⌋ := this
    · have := floor_scale_le lon (lonStep 6) 2 (by norm_num [lonStep]) (by norm_num)
      calc lonStep 5 * ⌊lon / lonStep 5⌋
          = (lonStep 6 * 2) * ⌊lon / (lonStep 6 * 2)⌋ := by norm_num [lonStep]
        _ ≤ lonStep 6 * ⌊lon / lonStep 6⌋ := this
  · -- longitude: inner ne ≤ outer ne
    interval_cases k
    · have := floor_scale_add_le lon (lonStep 2) 8 (by norm_num [lonStep]) (by norm_num)
      calc lonStep 2 * ⌊lon / lonStep 2⌋ + lonStep 2
          ≤ (lonStep 2 * 8) * ⌊lon / (lonStep 2 * 8)⌋ + lonStep 2 * 8 := this
        _ = lonStep 1 * ⌊lon / lonStep 1⌋ + lonStep 1 := by norm_num [lonStep]
    · have := floor_scale_add_le lon (lonStep 3) 10 (by norm_num [lonStep]) (by norm_num)
      calc lonStep 3 * ⌊lon / lonStep 3⌋ + lonStep 3
          ≤ (lonStep 3 * 10) * ⌊lon / (lonStep 3 * 10)⌋ + lonStep 3 * 10 := this
        _ = lonStep 2 * ⌊lon / lonStep 2⌋ + lonStep 2 := by norm_num [lonStep]
    · have := floor_scale_add_le lon (lonStep 4) 2 (by norm_num [lonStep]) (by norm_num)
      calc lonStep 4 * ⌊lon / lonStep 4⌋ + lonStep 4
          ≤ (lonStep 4 * 2) * ⌊lon / (lonStep 4 * 2)⌋ + lonStep 4 * 2 := this
        _ = lonStep 3 * ⌊lon / lonStep 3⌋ + lonStep 3 := by norm_num [lonStep]
    · have := floor_scale_add_le lon (lonStep 5) 2 (by norm_num [lonStep]) (by norm_num)
      calc lonStep 5 * ⌊lon / lonStep 5⌋ + lonStep 5
          ≤ (lonStep 5 * 2) * ⌊lon / (lonStep 5 * 2)⌋ + lonStep 5 * 2 := this
        _ = lonStep 4 * ⌊lon / lonStep 4⌋ + lonStep 4 := by norm_num [lonStep]
    · have := floor_scale_add_le lon (lonStep 6) 2 (by norm_num [lonStep]) (by norm_num)
      calc lonStep 6 * ⌊lon / lonStep 6⌋ + lonStep 6
          ≤ (lonStep 6 * 2) * ⌊lon / (lonStep 6 * 2)⌋ + lonStep 6 * 2 := this
        _ = lonStep 5 * ⌊lon / lonStep 5⌋ + lonStep 5 := by norm_num [lonStep]
  · interval_cases k <;> norm_num [latStep]
  · interval_cases k <;> norm_num [lonStep]

/-- Witness for C3 at the Tokyo-station coordinates and k = 3. -/
theorem C3_monotone_refinement_witness :
    ∃ A B A2 B2 : ℚ,
      meshcode_to_latlon
          (latlon_to_meshcode (356813489 / 10000000) (139766029 / 1000000)
            ((3 : ℕ) : ℤ)) "bbox" =
        Except.ok (CoordRec.box A B (A + latStep 3) (B + lonStep 3)) ∧
      meshcode_to_latlon
          (latlon_to_meshcode (356813489 / 10000000) (139766029 / 1000000)
            ((3 + 1 : ℕ) : ℤ)) "bbox" =
        Except.ok (CoordRec.box A2 B2 (A2 + latStep (3 + 1))
          (B2 + lonStep (3 + 1))) ∧
      A ≤ A2 ∧ A2 + latStep (3 + 1) ≤ A + latStep 3 ∧
      B ≤ B2 ∧ B2 + lonStep (3 + 1) ≤ B + lonStep 3 ∧
      latStep (3 + 1) < latStep 3 ∧ lonStep (3 + 1) < lonStep 3 :=
  C3_monotone_refinement (356813489 / 10000000) (139766029 / 1000000)
    (by norm_num [ValidJapan]) 3 (by norm_num) (by norm_num)

lemma natStr_ne_nil (n : ℕ) : natStr n ≠ [] := by
  rw [natStr]
  split <;> simp

lemma intStr_ne_nil (n : ℤ) : intStr n ≠ [] := by
  unfold intStr
  split
  · simp
  · exact natStr_ne_nil _

lemma encode_lt_one (lat lon : ℚ) (level : ℤ) (h : level < 1) :
    latlon_to_meshcode lat lon level = latlon_to_meshcode lat lon 3 := by
  simp only [latlon_to_meshcode]
  rw [if_neg (by omega : ¬ level = 1), if_neg (by omega : ¬ level = 2),
    if_neg (by omega : ¬ level = 3),
    if_neg (by decide : ¬ (3:ℤ) = 1), if_neg (by decide : ¬ (3:ℤ) = 2),
    if_pos (trivial : True)]
  rw [show (level - 3).toNat = 0 from by omega, encodeLoop_zero,
    List.append_nil]

lemma encodeLoop_split :
    ∀ (n m : ℕ) (t u : ℚ) (a b : ℤ),
    ∃ (t2 u2 : ℚ) (a2 b2 : ℤ),
      encodeLoop (n + m) t u a b =
        encodeLoop n t u a b ++ encodeLoop m t2 u2 a2 b2 := by
  intro n
  induction n with
  | zero =>
    intro m t u a b
    exact ⟨t, u, a, b, by rw [Nat.zero_add, encodeLoop_zero, List.nil_append]⟩
  | succ n ih =>
    intro m t u a b
    obtain ⟨t2, u2, a2, b2, hr⟩ := ih m ((t - (a : ℚ)) * 2) ((u - (b : ℚ)) * 2)
      (truncInt ((t - (a : ℚ)) * 2)) (truncInt ((u - (b : ℚ)) * 2))
    refine ⟨t2, u2, a2, b2, ?_⟩
    rw [show n + 1 + m = (n + m) + 1 from by omega, encodeLoop_succ, hr,
      encodeLoop_succ, List.append_assoc]

lemma encodeLoop_length_floor :
    ∀ (k : ℕ) (t u : ℚ), 0 ≤ t → 0 ≤ u →
    (encodeLoop k t u ⌊t⌋ ⌊u⌋).length = k := by
  intro k
  induction k with
  | zero =>
    intro t u _ _
    rw [encodeLoop_zero]
    rfl
  | succ k ih =>
    intro t u ht hu
    have ht2 : (0:ℚ) ≤ (t - (⌊t⌋ : ℚ)) * 2 := by
      have := lv_nonneg t 2 (by norm_num)
      simp only [Int.fract] at this
      exact this
    have hu2 : (0:ℚ) ≤ (u - (⌊u⌋ : ℚ)) * 2 := by
      have := lv_nonneg u 2 (by norm_num)
      simp only [Int.fract] at this
      exact this
    have hdx : 0 ≤ ⌊(t - (⌊t⌋ : ℚ)) * 2⌋ ∧ ⌊(t - (⌊t⌋ : ℚ)) * 2⌋ < 2 := by
      have := fract_scale_floor_mem t 2 (by norm_num)
      simp only [Int.fract] at this
      exact_mod_cast this
    have hdy : 0 ≤ ⌊(u - (⌊u⌋ : ℚ)) * 2⌋ ∧ ⌊(u - (⌊u⌋ : ℚ)) * 2⌋ < 2 := by
      have := fract_scale_floor_mem u 2 (by norm_num)
      simp only [Int.fract] at this
      exact_mod_cast this
    rw [encodeLoop_succ]
    rw [truncInt_of_nonneg _ ht2, truncInt_of_nonneg _ hu2]
    rw [intStr_digit _ (by omega) (by omega)]
    rw [List.length_append, ih _ _ ht2 hu2]
    simp only [List.length_singleton]
    omega

/-- Claim C5 (amended): `latlon_to_meshcode` performs no validation of
`level` and never fails with an `InvalidArgument` error: for every integer
level below 1 it returns the level-3 code (the three early-return tests all
fail and the quadrant loop runs zero times), and for every level above 6 it
returns the level-6 code extended by further quadrant digits. -/
theorem C5_no_level_validation (lat lon : ℚ) (level : ℤ)
    (h : level < 1 ∨ 6 < level) :
    (level < 1 →
      latlon_to_meshcode lat lon level = latlon_to_meshcode lat lon 3) ∧
    (6 < level → ∃ rest : List Char, rest ≠ [] ∧
      latlon_to_meshcode lat lon level =
        latlon_to_meshcode lat lon 6 ++ rest) := by
  constructor
  · exact fun hl => encode_lt_one lat lon level hl
  · intro hl
    simp only [latlon_to_meshcode]
    rw [if_neg (by omega : ¬ level = 1), if_neg (by omega : ¬ level = 2),
      if_neg (by omega : ¬ level = 3),
      if_neg (by decide : ¬ (6:ℤ) = 1), if_neg (by decide : ¬ (6:ℤ) = 2),
      if_neg (by decide : ¬ (6:ℤ) = 3),
      show ((6:ℤ) - 3).toNat = 3 from by decide]
    rw [show (level - 3).toNat = 3 + (level - 6).toNat from by omega]
    obtain ⟨m, hm⟩ : ∃ m, (level - 6).toNat = m + 1 :=
      ⟨(level - 6).toNat - 1, by omega⟩
    rw [hm]
    obtain ⟨t2, u2, a2, b2, hr⟩ := encodeLoop_split 3 (m + 1) _ _ _ _
    rw [hr]
    refine ⟨encodeLoop (m + 1) t2 u2 a2 b2, ?_, by
      simp only [List.append_assoc]⟩
    rw [encodeLoop_succ]
    simp [intStr_ne_nil]

/-- Counterexample to C5 as stated: at `lat = 35`, `lon = 135` and the
out-of-range level `0`, `latlon_to_meshcode` does not fail with an
`InvalidArgument` error; it returns the ordinary level-3 code `"52354000"`. -/
theorem C5_no_level_validation_counterexample :
    latlon_to_meshcode 35 135 0 = ['5', '2', '3', '5', '4', '0', '0', '0'] := by
  rw [encode_lt_one 35 135 0 (by norm_num)]
  show latlon_to_meshcode 35 135 ((3:ℕ):ℤ) = _
  rw [encode_eq_mcode 35 135 (by norm_num [ValidJapan]) 3 (by norm_num)
    (by norm_num)]
  norm_num [mcode, lv2, lv3, Int.fract]
  decide

/-- Witness for C5: applying the theorem at `lat = 35`, `lon = 135` and
level `-2` yields the level-3 fallback. -/
theorem C5_no_level_validation_witness :
    latlon_to_meshcode 35 135 (-2) = latlon_to_meshcode 35 135 3 :=
  (C5_no_level_validation 35 135 (-2) (Or.inl (by norm_num))).1 (by norm_num)

/-- Claim C7: at each of levels 4–6, encode appends the digit
`⌊rem_lat * 2⌋ * 2 + ⌊rem_lon * 2⌋ + 1`, which lies in `{1, 2, 3, 4}`
(stated for the loop `encodeLoop` on any state with nonnegative carried
values, as produced by the valid-range cascade); decode's level 4–6 step
adds `lat_delta` to `lat` exactly when the digit is 3 or 4 and `lon_delta`
to `lon` exactly when the digit is 2 or 4; hence digit 1 never increases
`lat` or `lon` relative to the parent cell's south-west corner, and digit 4
always increases both (the halved deltas being added in full). -/
theorem C7_quadrant_mapping :
    (∀ (t u : ℚ) (k : ℕ), 0 ≤ t → 0 ≤ u →
      encodeLoop (k + 1) t u (truncInt t) (truncInt u) =
        digitChar (⌊(t - (truncInt t : ℚ)) * 2⌋ * 2 +
            ⌊(u - (truncInt u : ℚ)) * 2⌋ + 1).toNat ::
          encodeLoop k ((t - (truncInt t : ℚ)) * 2) ((u - (truncInt u : ℚ)) * 2)
            (truncInt ((t - (truncInt t : ℚ)) * 2))
            (truncInt ((u - (truncInt u : ℚ)) * 2)) ∧
      1 ≤ ⌊(t - (truncInt t : ℚ)) * 2⌋ * 2 + ⌊(u - (truncInt u : ℚ)) * 2⌋ + 1 ∧
      ⌊(t - (truncInt t : ℚ)) * 2⌋ * 2 + ⌊(u - (truncInt u : ℚ)) * 2⌋ + 1 ≤ 4) ∧
    (∀ (i : ℕ) (c : List Char) (st : DecSt), i < c.length →
      stepI i c st =
        ⟨st.lat + (if charAt c i = 3 ∨ charAt c i = 4
            then st.latDelta / 2 else 0),
         st.lon + (if charAt c i = 2 ∨ charAt c i = 4
            then st.lonDelta / 2 else 0),
         st.latDelta / 2, st.lonDelta / 2⟩) ∧
    (∀ (i : ℕ) (c : List Char) (st : DecSt), i < c.length → charAt c i = 1 →
      (stepI i c st).lat = st.lat ∧ (stepI i c st).lon = st.lon) ∧
    (∀ (i : ℕ) (c : List Char) (st : DecSt), i < c.length → charAt c i = 4 →
      (stepI i c st).lat = st.lat + st.latDelta / 2 ∧
      (stepI i c st).lon = st.lon + st.lonDelta / 2) := by
  refine ⟨?_, ?_, ?_, ?_⟩
  · intro t u k ht hu
    have hfx : truncInt t = ⌊t⌋ := truncInt_of_nonneg t ht
    have hfy : truncInt u = ⌊u⌋ := truncInt_of_nonneg u hu
    have hdx := fract_scale_floor_mem t 2 (by norm_num)
    have hdy := fract_scale_floor_mem u 2 (by norm_num)
    simp only [Int.fract] at hdx hdy
    have hdx2 : ⌊(t - (truncInt t : ℚ)) * 2⌋ < 2 := by
      rw [hfx]; exact_mod_cast hdx.2
    have hdx0 : 0 ≤ ⌊(t - (truncInt t : ℚ)) * 2⌋ := by
      rw [hfx]; exact_mod_cast hdx.1
    have hdy2 : ⌊(u - (truncInt u : ℚ)) * 2⌋ < 2 := by
      rw [hfy]; exact_mod_cast hdy.2
    have hdy0 : 0 ≤ ⌊(u - (truncInt u : ℚ)) * 2⌋ := by
      rw [hfy]; exact_mod_cast hdy.1
    refine ⟨?_, by omega, by omega⟩
    rw [encodeLoop_succ]
    have ht2 : (0:ℚ) ≤ (t - (truncInt t : ℚ)) * 2 := by
      rw [hfx]
      have := lv_nonneg t 2 (by norm_num)
      simp only [Int.fract] at this
      exact this
    have hu2 : (0:ℚ) ≤ (u - (truncInt u : ℚ)) * 2 := by
      rw [hfy]
      have := lv_nonneg u 2 (by norm_num)
      simp only [Int.fract] at this
      exact this
    rw [truncInt_of_nonneg _ ht2, truncInt_of_nonneg _ hu2]
    rw [intStr_digit _ (by omega) (by omega)]
    rfl
  · intro i c st hi
    unfold stepI
    rw [if_pos hi]
  · intro i c st hi hd
    unfold stepI
    rw [if_pos hi, hd]
    norm_num
  · intro i c st hi hd
    unfold stepI
    rw [if_pos hi, hd]
    norm_num

/-- Witness for C7 at the concrete loop state `t = 1/2`, `u = 3/4` and the
decode step on the concrete code `"534912"` at position 8. -/
theorem C7_quadrant_mapping_witness :
    1 ≤ ⌊((1/2 : ℚ) - (truncInt (1/2 : ℚ) : ℚ)) * 2⌋ * 2 +
        ⌊((3/4 : ℚ) - (truncInt (3/4 : ℚ) : ℚ)) * 2⌋ + 1 ∧
    ⌊((1/2 : ℚ) - (truncInt (1/2 : ℚ) : ℚ)) * 2⌋ * 2 +
        ⌊((3/4 : ℚ) - (truncInt (3/4 : ℚ) : ℚ)) * 2⌋ + 1 ≤ 4 :=
  ⟨((C7_quadrant_mapping.1 (1/2) (3/4) 0 (by norm_num) (by norm_num)).2).1,
   ((C7_quadrant_mapping.1 (1/2) (3/4) 0 (by norm_num) (by norm_num)).2).2⟩

lemma encode_length_ge3 (lat lon : ℚ) (h : ValidJapan lat lon) (level : ℤ)
    (hl1 : ¬ level = 1) (hl2 : ¬ level = 2) (hl3 : ¬ level = 3) :
    (latlon_to_meshcode lat lon level).length = 8 + (level - 3).toNat := by
  obtain ⟨hx10, hx100, hlon1, hlon2⟩ := h
  have hx0 : (0:ℚ) ≤ lat * (3 / 2) := by linarith
  have hy0 : (0:ℚ) ≤ lon - 100 := by linarith
  have hy100 : lon - 100 < 100 := by linarith
  have hfx10 : 10 ≤ ⌊lat * (3 / 2)⌋ := Int.le_floor.mpr (by exact_mod_cast hx10)
  have hfx100 : ⌊lat * (3 / 2)⌋ < 100 := Int.floor_lt.mpr (by exact_mod_cast hx100)
  have hfy0 : 0 ≤ ⌊lon - 100⌋ := Int.floor_nonneg.mpr hy0
  have hfy100 : ⌊lon - 100⌋ < 100 := Int.floor_lt.mpr (by exact_mod_cast hy100)
  have h2x : (0:ℚ) ≤ Int.fract (lat * (3 / 2)) * 8 := lv_nonneg _ _ (by norm_num)
  have h2y : (0:ℚ) ≤ Int.fract (lon - 100) * 8 := lv_nonneg _ _ (by norm_num)
  have h3x : (0:ℚ) ≤ Int.fract (lv2 (lat * (3 / 2))) * 10 :=
    lv_nonneg _ _ (by norm_num)
  have h3y : (0:ℚ) ≤ Int.fract (lv2 (lon - 100)) * 10 :=
    lv_nonneg _ _ (by norm_num)
  have d2x := d2_mem (lat * (3 / 2))
  have d2y := d2_mem (lon - 100)
  have d3x := d3_mem (lat * (3 / 2))
  have d3y := d3_mem (lon - 100)
  simp only [lv2, lv3, Int.fract] at h2x h2y h3x h3y d2x d2y d3x d3y
  simp only [latlon_to_meshcode]
  rw [if_neg hl1, if_neg hl2, if_neg hl3]
  rw [truncInt_of_nonneg _ hx0, truncInt_of_nonneg _ hy0]
  rw [truncInt_of_nonneg _ h2x, truncInt_of_nonneg _ h2y]
  rw [truncInt_of_nonneg _ h3x, truncInt_of_nonneg _ h3y]
  rw [intStr_of_nonneg _ (by omega), intStr_of_nonneg _ (by omega),
    natStr_two_digits _ (by omega) (by omega), zfill2_natStr _ (by omega)]
  rw [intStr_digit _ d2x.1 (by omega), intStr_digit _ d2y.1 (by omega)]
  rw [intStr_digit _ d3x.1 (by omega), intStr_digit _ d3y.1 (by omega)]
  simp only [List.length_append, List.length_cons, List.length_nil,
    List.length_singleton]
  rw [encodeLoop_length_floor ((level - 3).toNat) _ _ h3x h3y]

/-- Claim C10 (amended): `latlon_to_meshcode` raises no error for any
integer level.  For `(lat, lon)` in the valid Japan mesh range: every
integer level below 1 returns exactly the 8-character level-3 code, and
every level above 6 returns a code of length `8 + (level - 3)`, which is
longer than 11 characters.  (Outside the valid range the fallback equality
still holds but the level-3 code need not have 8 characters: at
`lat = 0, lon = 100` it has 7.) -/
theorem C10_level_fallback (lat lon : ℚ) (h : ValidJapan lat lon)
    (level : ℤ) :
    (level < 1 →
      latlon_to_meshcode lat lon level = latlon_to_meshcode lat lon 3 ∧
      (latlon_to_meshcode lat lon level).length = 8) ∧
    (6 < level →
      (latlon_to_meshcode lat lon level).length = (8 + (level - 3)).toNat ∧
      11 < (latlon_to_meshcode lat lon level).length) := by
  constructor
  · intro hl
    refine ⟨encode_lt_one lat lon level hl, ?_⟩
    rw [encode_length_ge3 lat lon h level (by omega) (by omega) (by omega)]
    omega
  · intro hl
    rw [encode_length_ge3 lat lon h level (by omega) (by omega) (by omega)]
    omega

/-- Counterexample to C10 as stated: at `lat = 0, lon = 100` (which the
claim's unrestricted "for every lat, lon" includes) and level 0, the
returned code is `"0000000"`, which has 7 characters, not 8: the level-1
latitude index `0` prints as a single character. -/
theorem C10_level_fallback_counterexample :
    latlon_to_meshcode 0 100 0 = ['0', '0', '0', '0', '0', '0', '0'] ∧
    (latlon_to_meshcode 0 100 0).length ≠ 8 := by
  have he : latlon_to_meshcode 0 100 0 = ['0', '0', '0', '0', '0', '0', '0'] := by
    simp only [latlon_to_meshcode]
    rw [if_neg (by decide : ¬ (0:ℤ) = 1), if_neg (by decide : ¬ (0:ℤ) = 2),
      if_neg (by decide : ¬ (0:ℤ) = 3),
      show ((0:ℤ) - 3).toNat = 0 from by decide, encodeLoop_zero,
      List.append_nil]
    norm_num [truncInt, intStr, zfill2]
    rw [natStr_of_lt_ten 0 (by norm_num)]
    decide
  exact ⟨he, by rw [he]; decide⟩

/-- Witness for C10 at `lat = 35, lon = 135` (valid range) and level 0. -/
theorem C10_level_fallback_witness :
    latlon_to_meshcode 35 135 0 = latlon_to_meshcode 35 135 3 ∧
    (latlon_to_meshcode 35 135 0).length = 8 :=
  (C10_level_fallback 35 135 (by norm_num [ValidJapan]) 0).1 (by norm_num)

/-- Counterexample to C4 as stated: the empty batch (N = 0) does not
produce 0 records; the call fails with the NaN-conversion error raised by
`int(s_code.str.len().max())` on an empty pandas series. -/
theorem C4_batch_scalar_counterexample :
    meshcode_to_latlon_vectorized [] "sw" =
      Except.error "cannot convert float NaN to integer" := rfl

/-- Witness for C4: scalar/batch agreement at the concrete code `"5339"`. -/
theorem C4_batch_scalar_witness :
    meshcode_to_latlon ['5', '3', '3', '9'] "sw" =
        Except.ok (CoordRec.point (106 / 3) 139) ↔
      meshcode_to_latlon_vectorized [['5', '3', '3', '9']] "sw" =
        Except.ok [CoordRec.point (106 / 3) 139] :=
  (C4_batch_scalar "sw" (Or.inl rfl)).2 ['5', '3', '3', '9']
    (CoordRec.point (106 / 3) 139) (by decide) (by decide)

end TokyoMesh
